import Mathlib

/-!
# 3d-geometry-visualizer: the computational core of `script.js`

A shallow embedding of the functions of `src/script.js` that classify axis-aligned
regions, size the sampling domain, validate equation texts, build scalar fields, sample
them over the grid and manage the list of equations, followed by theorems about them.

Conventions of the embedding.

* JavaScript numbers are modelled by exact rationals `ℚ`; rounding of binary floating
  point is not modelled.  The not-a-number value is modelled separately (`Num`).
* JavaScript strings are modelled by `String`, processed as lists of characters.
* three.js positions are `Vector3` values in scene coordinates: the scene's second
  coordinate is the user's `z` and its third coordinate is the user's `y`.
* `math.evaluate` of math.js is an external library: it is a parameter of the functions
  that call it, returning either a value or the message of the error it throws.
* The global variables are the fields of `Session`; a function that reads or writes them
  takes the state and returns the new one.  A timeout callback is run right after the
  function that schedules it.
* `Math.sqrt(s) > 0.01` is computed as `s > 0.01 * 0.01`; the theorems state it with the
  real square root.
-/

namespace GeometryVisualizer

/-! ## Data model -/

/-- The global `axisRange = { min, max }`. -/
structure AxisRange where
  min : ℚ
  max : ℚ
  deriving DecidableEq, Repr

/-- A `THREE.Vector3(x, y, z)` in scene coordinates. -/
structure Vector3 where
  x : ℚ
  y : ℚ
  z : ℚ
  deriving DecidableEq, Repr

/-- The object returned by `getAxisCondition`:
`{ type: 'none' }`, `{ type: 'single', operator, value }` or `{ type: 'slab', min, max }`. -/
inductive AxisCondition where
  | none
  | single (operator : String) (value : ℚ)
  | slab (min max : ℚ)
  deriving DecidableEq, Repr

/-- What `drawRegion` puts into the scene: the sphere mesh it builds itself, or the call it
delegates to, with the arguments of that call (`drawLine` is expanded to its `points`). -/
inductive RegionPrimitive where
  | point (position : Vector3)
  | line (points : List Vector3)
  | plane (xMin xMax yMin yMax zMin zMax : ℚ) (xFixed yFixed zFixed : Bool)
  | volume (xMin xMax yMin yMax zMin zMax : ℚ)
  deriving DecidableEq, Repr

/-- The four kinds of region. -/
inductive RegionKind where
  | Point
  | Line
  | Plane
  | Volume
  deriving DecidableEq, Repr

/-- The kind of a drawn primitive. -/
def RegionPrimitive.kind : RegionPrimitive → RegionKind
  | .point _ => .Point
  | .line _ => .Line
  | .plane .. => .Plane
  | .volume .. => .Volume

/-- User coordinates `(x, y, z)` of a scene position: the scene stores `(x, z, y)`. -/
def Vector3.userCoords (v : Vector3) : ℚ × ℚ × ℚ := (v.x, v.z, v.y)

/-! ## Region classification (`drawRegion`, `drawLine`, `visualizeRegion`) -/

/-- The `points` array built by `drawLine` (`size = 10`), from which the line geometry is
made. -/
def drawLine (xMin xMax yMin yMax zMin zMax : ℚ) (xFixed yFixed zFixed : Bool) :
    List Vector3 :=
  let size : ℚ := 10
  if !xFixed then
    [ Vector3.mk xMin (if zFixed then zMin else -size / 2) (if yFixed then yMin else -size / 2),
      Vector3.mk xMax (if zFixed then zMax else size / 2) (if yFixed then yMax else size / 2) ]
  else if !yFixed then
    [ Vector3.mk (if xFixed then xMin else -size / 2) (if zFixed then zMin else -size / 2) yMin,
      Vector3.mk (if xFixed then xMax else size / 2) (if zFixed then zMax else size / 2) yMax ]
  else
    [ Vector3.mk (if xFixed then xMin else -size / 2) zMin (if yFixed then yMin else -size / 2),
      Vector3.mk (if xFixed then xMax else size / 2) zMax (if yFixed then yMax else size / 2) ]

/-- The test `size < 0.01` of `drawRegion` on one axis. -/
def axisFixed (lo hi : ℚ) : Bool := decide (hi - lo < 1 / 100)

/-- The function `drawRegion(xMin, xMax, yMin, yMax, zMin, zMax)`. -/
def drawRegion (xMin xMax yMin yMax zMin zMax : ℚ) : RegionPrimitive :=
  let xSize := xMax - xMin
  let ySize := yMax - yMin
  let zSize := zMax - zMin
  let xCenter := (xMax + xMin) / 2
  let yCenter := (yMax + yMin) / 2
  let zCenter := (zMax + zMin) / 2
  let xFixed : Bool := decide (xSize < 1 / 100)
  let yFixed : Bool := decide (ySize < 1 / 100)
  let zFixed : Bool := decide (zSize < 1 / 100)
  if xFixed && yFixed && zFixed then
    .point (Vector3.mk xCenter zCenter yCenter)
  else if (xFixed && yFixed) || (xFixed && zFixed) || (yFixed && zFixed) then
    .line (drawLine xMin xMax yMin yMax zMin zMax xFixed yFixed zFixed)
  else if xFixed || yFixed || zFixed then
    .plane xMin xMax yMin yMax zMin zMax xFixed yFixed zFixed
  else
    .volume xMin xMax yMin yMax zMin zMax

/-- One of the three per-axis blocks of `visualizeRegion`: starting from
`(axisRange.min, axisRange.max)`, a slab overwrites both bounds, `=` sets both to the value,
`<=` sets the maximum, `>=` sets the minimum, and anything else leaves the bounds alone. -/
def resolveAxis (axisRange : AxisRange) (cond : AxisCondition) : ℚ × ℚ :=
  let lo := axisRange.min
  let hi := axisRange.max
  match cond with
  | .slab mn mx => (mn, mx)
  | .single operator value =>
    if operator = "=" then (value, value)
    else if operator = "<=" then (lo, value)
    else if operator = ">=" then (value, hi)
    else (lo, hi)
  | .none => (lo, hi)

/-- Whether a condition has `type === 'none'`. -/
def AxisCondition.isNone : AxisCondition → Bool
  | .none => true
  | _ => false

/-- The function `visualizeRegion`, given the three conditions read by `getAxisCondition`
and the `axisRange` in force: the alert text when no condition is set, otherwise the
primitive drawn by `drawRegion`. -/
def visualizeRegion (axisRange : AxisRange) (xCond yCond zCond : AxisCondition) :
    Except String RegionPrimitive :=
  if xCond.isNone && yCond.isNone && zCond.isNone then
    .error "Please set at least one condition!"
  else
    let bx := resolveAxis axisRange xCond
    let by_ := resolveAxis axisRange yCond
    let bz := resolveAxis axisRange zCond
    .ok (drawRegion bx.1 bx.2 by_.1 by_.2 bz.1 bz.2)

/-- Number of fixed axes among three. -/
def fixedCount (xFixed yFixed zFixed : Bool) : Nat :=
  xFixed.toNat + yFixed.toNat + zFixed.toNat

/-! ## Strings -/

/-- The characters removed by `String.prototype.trim` and matched by `\s` in a regular
expression: the ECMAScript white space and line terminator code points. -/
def isWhiteSpace (c : Char) : Bool :=
  let n := c.toNat
  n == 0x09 || n == 0x0A || n == 0x0B || n == 0x0C || n == 0x0D || n == 0x20 ||
  n == 0xA0 || n == 0x1680 || (0x2000 ≤ n && n ≤ 0x200A) || n == 0x2028 || n == 0x2029 ||
  n == 0x202F || n == 0x205F || n == 0x3000 || n == 0xFEFF

/-- The method `s.trim()` on the characters of `s`. -/
def trim (s : List Char) : List Char :=
  ((s.dropWhile isWhiteSpace).reverse.dropWhile isWhiteSpace).reverse

/-- The method `s.replace(/a/g, b)` for a one-character pattern `a` and replacement `b`. -/
def replaceAllChar (a b : Char) (s : List Char) : List Char :=
  s.map (fun c => if c = a then b else c)

/-- The normalisation `equation.replace(/X/g, 'x').replace(/Y/g, 'y').replace(/Z/g, 'z')`. -/
def normalizeCase (s : List Char) : List Char :=
  replaceAllChar 'Z' 'z' (replaceAllChar 'Y' 'y' (replaceAllChar 'X' 'x' s))

/-- The method `s.replace(pat, rep)` with a string pattern: only the first occurrence of
`pat` is replaced. -/
def replaceFirst (pat rep : List Char) : List Char → List Char
  | [] => if pat = [] then rep else []
  | c :: cs =>
    if pat.isPrefixOf (c :: cs) then rep ++ (c :: cs).drop pat.length
    else c :: replaceFirst pat rep cs

/-- The method `s.split(sep)` for a one-character separator: the pieces between the
separators, in order; a string without the separator gives one piece. -/
def split (sep : Char) : List Char → List (List Char)
  | [] => [[]]
  | c :: cs =>
    if c = sep then [] :: split sep cs
    else
      match split sep cs with
      | [] => [[c]]
      | p :: ps => (c :: p) :: ps

/-- The test `!s || s.trim() === ''` on a destructured piece, which is `undefined` when the
piece is missing. -/
def emptySide : Option (List Char) → Bool
  | none => true
  | some s => s.isEmpty || (trim s).isEmpty

/-- The character class `[+\-*/^]`. -/
def isOperator (c : Char) : Bool :=
  c == '+' || c == '-' || c == '*' || c == '/' || c == '^'

/-- The character class `[a-zA-Z0-9+\-*/^()=.,\s]` of `validPattern`. -/
def isValidChar (c : Char) : Bool :=
  ('a' ≤ c && c ≤ 'z') || ('A' ≤ c && c ≤ 'Z') || ('0' ≤ c && c ≤ '9') ||
  c == '+' || c == '-' || c == '*' || c == '/' || c == '^' || c == '(' || c == ')' ||
  c == '=' || c == '.' || c == ',' || isWhiteSpace c

/-- The loop of the parenthesis check: the count after the whole text, or `none` as soon as
the count is negative after a character. -/
def parenScan : List Char → Int → Option Int
  | [], parenCount => some parenCount
  | char :: rest, parenCount =>
    let c1 := if char = '(' then parenCount + 1 else parenCount
    let c2 := if char = ')' then c1 - 1 else c1
    if c2 < 0 then none else parenScan rest c2

/-- The test of `/[+\-*/^]{2,}/`: two adjacent operator characters somewhere. -/
def hasOperatorRun : List Char → Bool
  | a :: b :: rest => (isOperator a && isOperator b) || hasOperatorRun (b :: rest)
  | _ => false

/-- The test of `/^[*/^]/`. -/
def startsWithBadOperator : List Char → Bool
  | c :: _ => c == '*' || c == '/' || c == '^'
  | [] => false

/-- The test of `/[+\-*/^]$/`. -/
def endsWithOperator (s : List Char) : Bool :=
  match s.getLast? with
  | some c => isOperator c
  | none => false

/-- The test of `/[+\-*/^]\s*=$/`: the text ends with an operator, white space and `=`. -/
def operatorBeforeFinalEquals (s : List Char) : Bool :=
  match s.reverse with
  | c :: rest =>
    c == '=' &&
      (match rest.dropWhile isWhiteSpace with
       | d :: _ => isOperator d
       | [] => false)
  | [] => false

/-- The test of `/=\s*[+\-*/^]/`: somewhere an `=`, white space and an operator. -/
def operatorAfterEquals : List Char → Bool
  | [] => false
  | c :: rest =>
    (c == '=' &&
      (match rest.dropWhile isWhiteSpace with
       | d :: _ => isOperator d
       | [] => false)) || operatorAfterEquals rest

/-! ## Equation validation (`validateEquationSyntax`) -/

/-- A number of the program: a rational, or `none` for not-a-number. -/
abbrev Num := Option ℚ

/-- Subtraction of numbers; not-a-number is absorbing. -/
def Num.sub : Num → Num → Num
  | some a, some b => some (a - b)
  | _, _ => none

/-- The scope object `{ x, y, z }` handed to `math.evaluate`. -/
structure Scope where
  x : ℚ
  y : ℚ
  z : ℚ
  deriving DecidableEq, Repr

/-- The external `math.evaluate(text, scope)`: the value, or the message of the error
thrown. -/
abbrev Evaluator := String → Scope → Except String Num

/-- The object returned by `validateEquationSyntax`:
`{ valid: true, normalizedEquation }` or `{ valid: false, error }`. -/
inductive Validation where
  | valid (normalizedEquation : String)
  | invalid (error : String)
  deriving DecidableEq, Repr

/-- The field `valid` of a validation result. -/
def Validation.isValid : Validation → Bool
  | .valid _ => true
  | .invalid _ => false

/-- The scope `{ x: 1, y: 1, z: 1 }` of the trial evaluation. -/
def testScope : Scope := Scope.mk 1 1 1

/-- The `try` block at the end of `validateEquationSyntax`, on the normalised text. -/
def tryParse (evaluate : Evaluator) (equation : List Char) : Except String Unit :=
  if equation.contains '=' then
    match split '=' equation with
    | left :: right :: _ => do
      let _ ← evaluate (String.mk (trim left)) testScope
      let _ ← evaluate (String.mk (trim right)) testScope
      pure ()
    | _ => .error "Cannot read properties of undefined (reading 'trim')"
  else do
    let _ ← evaluate (String.mk equation) testScope
    pure ()

/-- The checks of `validateEquationSyntax` that follow the normalisation of the case, on
the normalised text `equation`; each returns its own diagnostic. -/
def structuralError (equation : List Char) : Option String :=
  let parts := split '=' equation
  if equation.contains '=' && emptySide (parts.get? 0) then
    some "Left side of equation cannot be empty"
  else if equation.contains '=' && emptySide (parts.get? 1) then
    some "Right side of equation cannot be empty"
  else
    match parenScan equation 0 with
    | none => some "Unbalanced parentheses - closing ) before opening ("
    | some parenCount =>
      if parenCount > 0 then some "Unbalanced parentheses - missing closing )"
      else if parenCount < 0 then some "Unbalanced parentheses - missing opening ("
      else if !equation.all isValidChar then
        some "Invalid characters in equation. Use only: x, y, z, numbers, +, -, *, /, ^, (, )"
      else if hasOperatorRun (replaceFirst ['*', '*'] [] equation) then
        some "Consecutive operators found (e.g., ++, --, */). Use single operators."
      else if startsWithBadOperator (trim equation) then
        some "Equation cannot start with *, /, or ^"
      else if endsWithOperator (trim equation) then
        some "Equation cannot end with an operator"
      else if operatorBeforeFinalEquals equation || operatorAfterEquals equation then
        some "Cannot have operators immediately before or after ="
      else none

/-- The function `validateEquationSyntax(equation)`, with `math.evaluate` as a parameter. -/
def validateEquationSyntax (evaluate : Evaluator) (equation : String) : Validation :=
  if equation.data.isEmpty || (trim equation.data).isEmpty then
    .invalid "Equation cannot be empty"
  else
    let equation := normalizeCase equation.data
    match structuralError equation with
    | some error => .invalid error
    | none =>
      match tryParse evaluate equation with
      | .ok _ => .valid (String.mk equation)
      | .error message => .invalid ("Syntax error: " ++ message)

/-! ## Scalar fields (`visualizeSingleEquation`, `visualizeIntersection`) -/

/-- The pair `(leftSide, rightSide)` computed in `visualizeSingleEquation` and in the
`map` of `visualizeIntersection` from the equation text. -/
def equationSides (equation : String) : Option String × Option String :=
  let equation := normalizeCase equation.data
  if equation.contains '=' then
    let parts := (split '=' equation).map trim
    ((parts.get? 0).map String.mk, (parts.get? 1).map String.mk)
  else
    (some (String.mk equation), some "0")


/-- The closure `implicitFunc` of `visualizeSingleEquation`, which is also the closure
returned in the `map` of `visualizeIntersection`: both sides are evaluated in the scope
`{ x, y, z }` and subtracted; an error thrown by the evaluation is caught and gives
not-a-number.  A side that is `undefined` makes `math.evaluate` throw. -/
def implicitFunc (evaluate : Evaluator) (leftSide rightSide : Option String)
    (x y z : ℚ) : Num :=
  match leftSide, rightSide with
  | some l, some r =>
    match evaluate l (Scope.mk x y z) with
    | .error _ => none
    | .ok left =>
      match evaluate r (Scope.mk x y z) with
      | .error _ => none
      | .ok right => Num.sub left right
  | _, _ => none

/-- The scalar field built from an equation text. -/
def scalarField (evaluate : Evaluator) (equation : String) (x y z : ℚ) : Num :=
  implicitFunc evaluate (equationSides equation).1 (equationSides equation).2 x y z

/-! ## Adaptive axis range (`calculateAxisRange`) -/

/-- The character class `\d`. -/
def isDigit (c : Char) : Bool := '0' ≤ c && c ≤ '9'

/-- The matches of `equation.match(/\d+\.?\d*/g)`, left to right: at the first digit, all
the digits that follow, then a dot if there is one, then all the digits after it; the scan
resumes after the match. -/
def matchNumbers : List Char → List (List Char)
  | [] => []
  | c :: cs =>
    if isDigit c then
      let rest1 := cs.dropWhile isDigit
      let dot : List Char := if rest1.head? = some '.' then ['.'] else []
      let rest2 := rest1.drop dot.length
      (c :: cs.takeWhile isDigit ++ dot ++ rest2.takeWhile isDigit) ::
        matchNumbers (rest2.dropWhile isDigit)
    else matchNumbers cs
termination_by s => s.length
decreasing_by
  · simp_wf
    have h1 := (List.dropWhile_suffix (l := cs) isDigit).length_le
    have h2 := (List.dropWhile_suffix
      (l := (cs.dropWhile isDigit).drop
        (if (cs.dropWhile isDigit).head? = some '.' then ['.'] else []).length) isDigit).length_le
    have h3 := List.length_drop
      (if (cs.dropWhile isDigit).head? = some '.' then ['.'] else []).length
      (cs.dropWhile isDigit)
    omega
  · simp_wf

/-- The value of a decimal digit. -/
def digitValue (c : Char) : Nat := c.toNat - '0'.toNat

/-- The natural number written by a list of decimal digits. -/
def digitsValue (ds : List Char) : Nat :=
  ds.foldl (fun acc c => 10 * acc + digitValue c) 0

/-- The function `parseFloat` on a match of `/\d+\.?\d*/`: integer part plus fraction. -/
def parseFloat (num : List Char) : ℚ :=
  let intPart := num.takeWhile isDigit
  let fracPart := ((num.dropWhile isDigit).drop 1).takeWhile isDigit
  (digitsValue intPart : ℚ) + (digitsValue fracPart : ℚ) / 10 ^ fracPart.length

/-- The body of `numbers.forEach` in `calculateAxisRange`. -/
def updateMax (maxValue : ℚ) (num : List Char) : ℚ :=
  let val := parseFloat num
  if val > maxValue then val else maxValue

/-- The body of `equations.forEach` in `calculateAxisRange`; `input` is the value of the
input element of the equation, `none` when the element does not exist. -/
def scanEquation (maxValue : ℚ) (input : Option String) : ℚ :=
  match input with
  | none => maxValue
  | some value =>
    let equation := trim value.data
    if equation.isEmpty then maxValue
    else (matchNumbers equation).foldl updateMax maxValue

/-- The variable `maxValue` of `calculateAxisRange` after the loop over the equations. -/
def maxLiteral (inputs : List (Option String)) : ℚ :=
  inputs.foldl scanEquation 5

/-- The function `calculateAxisRange(equations)` on the input values of the equations. -/
def calculateAxisRange (inputs : List (Option String)) : AxisRange :=
  let maxValue := maxLiteral inputs
  if maxValue ≤ 5 then AxisRange.mk (-5) 5
  else if maxValue ≤ 10 then AxisRange.mk (-10) 10
  else if maxValue ≤ 20 then AxisRange.mk (-20) 20
  else if maxValue ≤ 50 then AxisRange.mk (-50) 50
  else AxisRange.mk (-100) 100

/-! ## Vocabulary of the specification -/

/-- The fixed tier sequence of extents. -/
def tiers : List ℚ := [5, 10, 20, 50, 100]

/-- The values of the numeric literals found in one equation text. -/
def literalsOf (input : Option String) : List ℚ :=
  match input with
  | none => []
  | some value => (matchNumbers (trim value.data)).map parseFloat

/-- The values of the numeric literals found in any of the equation texts. -/
def literalValues (inputs : List (Option String)) : List ℚ :=
  inputs.flatMap literalsOf

/-- The text before the first `=`. -/
def leftOf (s : List Char) : List Char := s.takeWhile (fun c => c != '=')

/-- The text after the first `=`, up to the next `=` or the end. -/
def rightOf (s : List Char) : List Char :=
  ((s.dropWhile (fun c => c != '=')).drop 1).takeWhile (fun c => c != '=')

/-- The character `c` with `X`, `Y`, `Z` replaced by `x`, `y`, `z`. -/
def lowerChar (c : Char) : Char :=
  if c = 'X' then 'x' else if c = 'Y' then 'y' else if c = 'Z' then 'z' else c

/-- The input with every `X`, `Y`, `Z` replaced by `x`, `y`, `z`. -/
def lowerXYZ (s : List Char) : List Char := s.map lowerChar

/-- The count of `(` minus the count of `)` in a text. -/
def parenBalance (s : List Char) : Int := (s.count '(' : Int) - (s.count ')' : Int)

/-- Scanning left to right, the running count of `(` minus `)` becomes negative after some
prefix, or is positive at the end. -/
def Unbalanced (s : List Char) : Prop :=
  (∃ n, n ≤ s.length ∧ parenBalance (s.take n) < 0) ∨ 0 < parenBalance s

/-- The parser evaluates the text, or each trimmed side of its `=`, at `x = y = z = 1`
without error. -/
def ParsesOk (evaluate : Evaluator) (equation : List Char) : Prop :=
  if '=' ∈ equation then
    (∃ v, evaluate (String.mk (trim (leftOf equation))) testScope = .ok v) ∧
    (∃ v, evaluate (String.mk (trim (rightOf equation))) testScope = .ok v)
  else ∃ v, evaluate (String.mk equation) testScope = .ok v

/-- The parser fails with `message` on the text, or on the first of the two trimmed sides
of its `=` on which it fails. -/
def ParseFails (evaluate : Evaluator) (equation : List Char) (message : String) : Prop :=
  if '=' ∈ equation then
    evaluate (String.mk (trim (leftOf equation))) testScope = .error message ∨
    ((∃ v, evaluate (String.mk (trim (leftOf equation))) testScope = .ok v) ∧
      evaluate (String.mk (trim (rightOf equation))) testScope = .error message)
  else evaluate (String.mk equation) testScope = .error message

/-- `r` is the largest of `m0` and the values `vs`. -/
def IsMaxOf (m0 : ℚ) (vs : List ℚ) (r : ℚ) : Prop :=
  m0 ≤ r ∧ (∀ v ∈ vs, v ≤ r) ∧ (r = m0 ∨ r ∈ vs)

/-- The change of the parenthesis count caused by one character. -/
def parenDelta (c : Char) : Int :=
  (if c = '(' then 1 else 0) - (if c = ')' then 1 else 0)

/-- An evaluator given by a finite table of texts and their values as functions of the
scope; a text outside the table is refused with an error. -/
def tableEvaluator (table : List (String × (Scope → Num))) : Evaluator :=
  fun text scope =>
    match table.lookup text with
    | some f => .ok (f scope)
    | none => .error ("Undefined symbol " ++ text)

/-- The left text of the scalar field of an equation: the trimmed text before the first
`=` of the normalised equation, or the whole normalised equation without `=`. -/
def leftText (equation : String) : String :=
  if '=' ∈ lowerXYZ equation.data then String.mk (trim (leftOf (lowerXYZ equation.data)))
  else String.mk (lowerXYZ equation.data)

/-- The right text of the scalar field of an equation: the trimmed text after the first
`=` of the normalised equation, or the literal `0` without `=`. -/
def rightText (equation : String) : String :=
  if '=' ∈ lowerXYZ equation.data then String.mk (trim (rightOf (lowerXYZ equation.data)))
  else "0"

/-! ## Sampling (`drawImplicitSurfaceImproved`, the scan of `visualizeIntersection`) -/

/-- A scalar field: the closure built from an equation text. -/
abbrev FieldFn := ℚ → ℚ → ℚ → Num

/-- The test `Math.abs(value) < threshold`, which is false on not-a-number. -/
def absLessThan (value : Num) (threshold : ℚ) : Bool :=
  match value with
  | some v => decide (|v| < threshold)
  | none => false

/-- The test `!isNaN(val)`. -/
def isDefined (val : Num) : Bool := val.isSome

/-- The test `Math.sqrt(dx*dx + dy*dy + dz*dz) > 0.01` on the three differences, false as
soon as one of them is not-a-number.  The square root is not computed: for the sum `s` of
three squares, `Math.sqrt(s) > 0.01` is `s > 0.01 * 0.01`. -/
def gradLengthExceeds (dx dy dz : Num) : Bool :=
  match dx, dy, dz with
  | some a, some b, some c => decide ((1 / 100 : ℚ) ^ 2 < a * a + b * b + c * c)
  | _, _, _ => false

/-- The body of the innermost loop of `drawImplicitSurfaceImproved` at the grid point
`(x, y, z)`: the positions it pushes, in scene coordinates. -/
def surfaceCell (func : FieldFn) (step threshold x y z : ℚ) : List Vector3 :=
  let value := func x y z
  if absLessThan value threshold then
    let epsilon := step * (1 / 2)
    let dx := Num.sub (func (x + epsilon) y z) (func (x - epsilon) y z)
    let dy := Num.sub (func x (y + epsilon) z) (func x (y - epsilon) z)
    let dz := Num.sub (func x y (z + epsilon)) (func x y (z - epsilon))
    if gradLengthExceeds dx dy dz then [Vector3.mk x z y] else []
  else []

/-- The array `positions` of `drawImplicitSurfaceImproved(func, colorHex)`, as the list of
the pushed scene positions, for the `axisRange` in force. -/
def drawImplicitSurfaceImproved (func : FieldFn) (axisRange : AxisRange) : List Vector3 :=
  let range := axisRange.max
  let resolution : Nat := 80
  let step := (2 * range) / (resolution : ℚ)
  let threshold := max (1 / 10) (range * (2 / 100))
  (List.range resolution).flatMap fun i =>
    (List.range resolution).flatMap fun j =>
      (List.range resolution).flatMap fun k =>
        surfaceCell func step threshold
          (-range + (i : ℚ) * step) (-range + (j : ℚ) * step) (-range + (k : ℚ) * step)

/-- The test `funcs.every(...)` of the intersection scan at the point `(x, y, z)`. -/
def allSatisfied (funcs : List FieldFn) (threshold x y z : ℚ) : Bool :=
  funcs.all fun func =>
    let val := func x y z
    isDefined val && absLessThan val threshold

/-- The array `positions` built by the three nested loops of `visualizeIntersection`, as
the list of the pushed scene positions. -/
def intersectionScan (funcs : List FieldFn) (axisRange : AxisRange) : List Vector3 :=
  let range := axisRange.max
  let resolution : Nat := 70
  let step := (2 * range) / (resolution : ℚ)
  let threshold := max (12 / 100) (range * (25 / 1000))
  (List.range resolution).flatMap fun i =>
    (List.range resolution).flatMap fun j =>
      (List.range resolution).flatMap fun k =>
        if allSatisfied funcs threshold
            (-range + (i : ℚ) * step) (-range + (j : ℚ) * step) (-range + (k : ℚ) * step) then
          [Vector3.mk (-range + (i : ℚ) * step) (-range + (k : ℚ) * step)
            (-range + (j : ℚ) * step)]
        else []

/-- The grid coordinate number `i` of a sampling domain of extent `e` with `n` steps per
axis: `-e + i * (2e / n)`. -/
def gridCoord (e : ℚ) (n i : Nat) : ℚ := -e + (i : ℚ) * (2 * e / (n : ℚ))

/-- The field `z - 1` of the plane `z = 1`. -/
def planeZ1 : FieldFn := fun _ _ z => some (z - 1)

/-- The field `z - 2` of the plane `z = 2`. -/
def planeZ2 : FieldFn := fun _ _ z => some (z - 2)

/-- The field `x^2 + y^2 + z^2 - 9` of the sphere of radius 3. -/
def sphereField : FieldFn := fun x y z => some (x ^ 2 + y ^ 2 + z ^ 2 - 9)

/-! ## Session state (`equations`, `axisRange`, `visualizedObjects`) -/

/-- An entry of the global array `equations`. -/
structure Equation where
  id : Nat
  color : String
  colorIndex : Nat
  displayNumber : Nat
  deriving DecidableEq, Repr

/-- The constant `MAX_EQUATIONS`. -/
def MAX_EQUATIONS : Nat := 3

/-- The constant `EQUATION_COLORS`. -/
def EQUATION_COLORS : List String := ["#ef4444", "#22d3ee", "#a78bfa"]

/-- An entry of the global array `visualizedObjects`: what one drawing call has put into
the scene. -/
inductive SceneObject where
  | region (primitive : RegionPrimitive)
  | surface (positions : List Vector3) (colorHex : String)
  | intersection (positions : List Vector3)

/-- The global state the functions read and write.  `inputValue id` is the value of the
input element `eq-input-<id>`; every live equation has one, created by `addEquation`. -/
structure Session where
  equations : List Equation
  nextEquationId : Nat
  inputValue : Nat → String
  axisRange : AxisRange
  visualizedObjects : List SceneObject

/-- The state when the script is loaded. -/
def initialSession : Session :=
  { equations := []
    nextEquationId := 1
    inputValue := fun _ => ""
    axisRange := AxisRange.mk (-5) 5
    visualizedObjects := [] }

/-- What a user action reports: nothing, an alert, or an alert followed by a thrown
error. -/
inductive Outcome where
  | done
  | alert (message : String)
  | alertThrow (message : String) (error : String)
  deriving DecidableEq, Repr

/-- The loop of `addEquation` that finds the first available colour index: the first `i`
below `EQUATION_COLORS.length` that is not used, and 0 when there is none. -/
def firstFreeColorIndex (usedColorIndices : List Nat) : Nat :=
  match (List.range EQUATION_COLORS.length).find? (fun i => !usedColorIndices.contains i) with
  | some i => i
  | none => 0

/-- The function `addEquation()`. -/
def addEquation (s : Session) : Session :=
  if s.equations.length ≥ MAX_EQUATIONS then s
  else
    let usedColorIndices := s.equations.map (fun eq => eq.colorIndex)
    let colorIndex := firstFreeColorIndex usedColorIndices
    let eqId := s.nextEquationId
    let displayNumber := s.equations.length + 1
    let color := EQUATION_COLORS.getD colorIndex ""
    { s with
      equations := s.equations ++ [Equation.mk eqId color colorIndex displayNumber]
      nextEquationId := s.nextEquationId + 1
      inputValue := fun i => if i = eqId then "" else s.inputValue i }

/-- The function `renumberEquations()`, numbering from `index + 1`. -/
def renumberFrom (index : Nat) : List Equation → List Equation
  | [] => []
  | eq :: rest => { eq with displayNumber := index + 1 } :: renumberFrom (index + 1) rest

/-- The function `removeEquation(id)`; the element `equation-<id>` exists exactly when the
equation is live. -/
def removeEquation (id : Nat) (s : Session) : Session :=
  if s.equations.any (fun eq => eq.id == id) then
    { s with equations := renumberFrom 0 (s.equations.filter (fun eq => eq.id != id)) }
  else s

/-- The function `clearVisualization()`. -/
def clearVisualization (s : Session) : Session :=
  { s with visualizedObjects := [] }

/-- The function `visualizeRegion()` on the state: the alert and return when no condition
is set, otherwise the scene is cleared and the region drawn. -/
def visualizeRegionOn (s : Session) (xCond yCond zCond : AxisCondition) : Outcome × Session :=
  match visualizeRegion s.axisRange xCond yCond zCond with
  | .error message => (Outcome.alert message, s)
  | .ok primitive =>
    (Outcome.done,
      { clearVisualization s with visualizedObjects := [SceneObject.region primitive] })

/-- The trimmed value of the input of an equation. -/
def equationText (s : Session) (eq : Equation) : String :=
  String.mk (trim (s.inputValue eq.id).data)

/-- The argument of `calculateAxisRange(equations)`: the input values of the equations. -/
def equationInputs (s : Session) : List (Option String) :=
  s.equations.map fun eq => some (s.inputValue eq.id)

/-- The validation loop of `visualizeEquations`: the alert text for the first equation
with a non-empty text that is not valid, `none` when there is no such equation. -/
def firstInvalid (evaluate : Evaluator) (s : Session) : List Equation → Option String
  | [] => none
  | eq :: rest =>
    if !(equationText s eq).data.isEmpty then
      match validateEquationSyntax evaluate (equationText s eq) with
      | .invalid error =>
        some ("Error in Equation " ++ toString eq.displayNumber ++ ": " ++ error)
      | .valid _ => firstInvalid evaluate s rest
    else firstInvalid evaluate s rest

/-- The loop of the timeout callback of `visualizeEquations`: one surface per equation with
a non-empty text, in order (`visualizeSingleEquation` then `drawImplicitSurfaceImproved`). -/
def sampleEquations (evaluate : Evaluator) (s : Session) (axisRange : AxisRange) :
    List Equation → List SceneObject
  | [] => []
  | eq :: rest =>
    if !(equationText s eq).data.isEmpty then
      SceneObject.surface
          (drawImplicitSurfaceImproved (scalarField evaluate (equationText s eq)) axisRange)
          eq.color ::
        sampleEquations evaluate s axisRange rest
    else sampleEquations evaluate s axisRange rest

/-- The function `visualizeEquations()`, the timeout callback included. -/
def visualizeEquations (evaluate : Evaluator) (s : Session) : Outcome × Session :=
  if s.equations.length = 0 then (Outcome.alert "Please add at least one equation!", s)
  else
    match firstInvalid evaluate s s.equations with
    | some message => (Outcome.alert message, s)
    | none =>
      let axisRange := calculateAxisRange (equationInputs s)
      (Outcome.done,
        { clearVisualization s with
          axisRange := axisRange
          visualizedObjects := sampleEquations evaluate s axisRange s.equations })

/-- The loop of `visualizeIntersection` that fills `equationData`: the non-empty texts in
order, or the alert text of the first one that is not valid (the loop then throws). -/
def collectEquationData (evaluate : Evaluator) (s : Session) :
    List Equation → Except String (List String)
  | [] => .ok []
  | eq :: rest =>
    if !(equationText s eq).data.isEmpty then
      match validateEquationSyntax evaluate (equationText s eq) with
      | .invalid error =>
        .error ("Error in Equation " ++ toString eq.displayNumber ++ ": " ++ error)
      | .valid _ =>
        match collectEquationData evaluate s rest with
        | .error message => .error message
        | .ok equationData => .ok (equationText s eq :: equationData)
    else collectEquationData evaluate s rest

/-- The function `visualizeIntersection()`, the timeout callback included. -/
def visualizeIntersection (evaluate : Evaluator) (s : Session) : Outcome × Session :=
  if s.equations.length < 2 then
    (Outcome.alert "Need at least 2 equations for intersection!", s)
  else
    match collectEquationData evaluate s s.equations with
    | .error message => (Outcome.alertThrow message "Validation failed", s)
    | .ok equationData =>
      if equationData.length < 2 then (Outcome.alert "Need at least 2 valid equations!", s)
      else
        let axisRange := calculateAxisRange (equationInputs s)
        let funcs : List FieldFn := equationData.map fun eq => scalarField evaluate eq
        let positions := intersectionScan funcs axisRange
        if positions.length = 0 then
          (Outcome.alert
              ("No intersection found in the visible range! " ++
                "Try adjusting the equations or the viewing range."),
            { clearVisualization s with axisRange := axisRange })
        else
          (Outcome.done,
            { clearVisualization s with
              axisRange := axisRange
              visualizedObjects := [SceneObject.intersection positions] })

/-- The acceptance test of the surface extractor at `(x, y, z)` in the words of the
specification: the field is defined there with absolute value below the threshold, its six
neighbour values at distance `step / 2` along the axes are defined, and the Euclidean
magnitude of the three central differences exceeds 0.01. -/
def SurfaceAccepts (func : FieldFn) (step threshold x y z : ℚ) : Prop :=
  ∃ v xp xm yp ym zp zm : ℚ,
    func x y z = some v ∧ |v| < threshold ∧
    func (x + step / 2) y z = some xp ∧ func (x - step / 2) y z = some xm ∧
    func x (y + step / 2) z = some yp ∧ func x (y - step / 2) z = some ym ∧
    func x y (z + step / 2) = some zp ∧ func x y (z - step / 2) = some zm ∧
    (1 / 100 : ℝ) <
      Real.sqrt (((xp - xm) * (xp - xm) + (yp - ym) * (yp - ym) + (zp - zm) * (zp - zm) : ℚ) : ℝ)

/-- The user types `text` into the input element of equation `id`. -/
def setInput (id : Nat) (text : String) (s : Session) : Session :=
  { s with inputValue := fun i => if i = id then text else s.inputValue i }

/-- A call of `addEquation` or of `removeEquation(id)`. -/
inductive EquationOp where
  | add
  | remove (id : Nat)
  deriving DecidableEq, Repr

/-- The effect of one call on the state. -/
def applyOp (s : Session) : EquationOp → Session
  | .add => addEquation s
  | .remove id => removeEquation id s

/-- The state after a sequence of calls, starting from no equations. -/
def runOps (ops : List EquationOp) : Session := ops.foldl applyOp initialSession

/-- The colour indices in use: those of the live equations. -/
def usedColorIndices (s : Session) : List Nat := s.equations.map (fun eq => eq.colorIndex)

/-- One call, recording next to the state the colour indices of the equations it
removes. -/
def stepTrace (st : Session × List Nat) (op : EquationOp) : Session × List Nat :=
  (applyOp st.1 op,
    match op with
    | .add => st.2
    | .remove id => st.2 ++ (st.1.equations.filter (fun eq => eq.id == id)).map
        (fun eq => eq.colorIndex))

/-- The state after a sequence of calls together with the colour indices of all the
equations removed on the way. -/
def runTrace (ops : List EquationOp) : Session × List Nat :=
  ops.foldl stepTrace (initialSession, [])

/-- The colour indices of the equations removed during a sequence of calls. -/
def removedColorIndices (ops : List EquationOp) : List Nat := (runTrace ops).2

/-- The three ways a condition resolves to an inverted interval: a slab entered with
`min > max`, `<= v` with `v` below the minimum of the range, `>= v` with `v` above its
maximum. -/
def InvertedCondition (axisRange : AxisRange) (cond : AxisCondition) : Prop :=
  (∃ mn mx, cond = AxisCondition.slab mn mx ∧ mx < mn) ∨
  (∃ v, cond = AxisCondition.single "<=" v ∧ v < axisRange.min) ∨
  (∃ v, cond = AxisCondition.single ">=" v ∧ axisRange.max < v)

/-- The live equations whose trimmed text is not empty. -/
def nonEmptyEquations (s : Session) : List Equation :=
  s.equations.filter (fun eq => !(equationText s eq).data.isEmpty)

/-- The invariant of the equation list, with the colour indices removed so far: at most
three equations, pairwise distinct colour indices below 3, and the indices in use or
removed form an initial segment. -/
def EquationsInv (st : Session × List Nat) : Prop :=
  st.1.equations.length ≤ 3 ∧
  (usedColorIndices st.1).Nodup ∧
  (∀ c ∈ usedColorIndices st.1, c < 3) ∧
  (∀ c, (c ∈ usedColorIndices st.1 ∨ c ∈ st.2) →
    ∀ m, m < c → (m ∈ usedColorIndices st.1 ∨ m ∈ st.2))

/-- Two equations added to the initial state, with the texts `x=1` and `x+*y=1`. -/
def twoEquations : Session :=
  setInput 2 "x+*y=1" (setInput 1 "x=1" (addEquation (addEquation initialSession)))

/-- An evaluator for the examples: it knows the texts `x` and `1`. -/
def atomEvaluator : Evaluator :=
  tableEvaluator [("x", fun scope => some scope.x), ("1", fun _ => some 1)]

/-- The region with the x axis fixed: a Point at the centres when y and z are fixed too, a
Line whose `drawLine` call has the x flag set when exactly one of y and z is fixed, and the
Plane whose call has the x flag alone set when neither is. -/
def regionWithXFixed (xMin xMax yMin yMax zMin zMax : ℚ) : RegionPrimitive :=
  if (axisFixed yMin yMax && axisFixed zMin zMax) = true then
    RegionPrimitive.point
      (Vector3.mk ((xMax + xMin) / 2) ((zMax + zMin) / 2) ((yMax + yMin) / 2))
  else if (axisFixed yMin yMax || axisFixed zMin zMax) = true then
    RegionPrimitive.line (drawLine xMin xMax yMin yMax zMin zMax true
      (axisFixed yMin yMax) (axisFixed zMin zMax))
  else RegionPrimitive.plane xMin xMax yMin yMax zMin zMax true false false

/-- The region with the y axis fixed: a Point, a Line whose call has the y flag set, or the
Plane whose call has the y flag alone set. -/
def regionWithYFixed (xMin xMax yMin yMax zMin zMax : ℚ) : RegionPrimitive :=
  if (axisFixed xMin xMax && axisFixed zMin zMax) = true then
    RegionPrimitive.point
      (Vector3.mk ((xMax + xMin) / 2) ((zMax + zMin) / 2) ((yMax + yMin) / 2))
  else if (axisFixed xMin xMax || axisFixed zMin zMax) = true then
    RegionPrimitive.line (drawLine xMin xMax yMin yMax zMin zMax
      (axisFixed xMin xMax) true (axisFixed zMin zMax))
  else RegionPrimitive.plane xMin xMax yMin yMax zMin zMax false true false

/-- The region with the z axis fixed: a Point, a Line whose call has the z flag set, or the
Plane whose call has the z flag alone set. -/
def regionWithZFixed (xMin xMax yMin yMax zMin zMax : ℚ) : RegionPrimitive :=
  if (axisFixed xMin xMax && axisFixed yMin yMax) = true then
    RegionPrimitive.point
      (Vector3.mk ((xMax + xMin) / 2) ((zMax + zMin) / 2) ((yMax + yMin) / 2))
  else if (axisFixed xMin xMax || axisFixed yMin yMax) = true then
    RegionPrimitive.line (drawLine xMin xMax yMin yMax zMin zMax
      (axisFixed xMin xMax) (axisFixed yMin yMax) true)
  else RegionPrimitive.plane xMin xMax yMin yMax zMin zMax false false true

/-! # Theorems -/


/-! ## Region classification -/

/-- An axis that is not fixed has different bounds. -/
theorem axisFixed_false_ne {lo hi : ℚ} (h : axisFixed lo hi = false) : lo ≠ hi := by
  intro e
  subst e
  simp [axisFixed] at h

/-- C1: for all six bounds, an axis is fixed exactly when its maximum minus its minimum is
below 0.01, and `drawRegion` draws a Point when three axes are fixed, a Line when two are,
a Plane when one is and a Volume when none is; what it draws is exactly one of the four
primitives, built from these bounds. -/
theorem drawRegion_kind_by_fixed_count (xMin xMax yMin yMax zMin zMax : ℚ) :
    (axisFixed xMin xMax = true ↔ xMax - xMin < 1 / 100) ∧
    (axisFixed yMin yMax = true ↔ yMax - yMin < 1 / 100) ∧
    (axisFixed zMin zMax = true ↔ zMax - zMin < 1 / 100) ∧
    (drawRegion xMin xMax yMin yMax zMin zMax).kind =
      (match fixedCount (axisFixed xMin xMax) (axisFixed yMin yMax) (axisFixed zMin zMax) with
       | 3 => RegionKind.Point
       | 2 => RegionKind.Line
       | 1 => RegionKind.Plane
       | _ => RegionKind.Volume) ∧
    (drawRegion xMin xMax yMin yMax zMin zMax =
        RegionPrimitive.point
          (Vector3.mk ((xMax + xMin) / 2) ((zMax + zMin) / 2) ((yMax + yMin) / 2)) ∨
      drawRegion xMin xMax yMin yMax zMin zMax =
        RegionPrimitive.line (drawLine xMin xMax yMin yMax zMin zMax
          (axisFixed xMin xMax) (axisFixed yMin yMax) (axisFixed zMin zMax)) ∨
      drawRegion xMin xMax yMin yMax zMin zMax =
        RegionPrimitive.plane xMin xMax yMin yMax zMin zMax
          (axisFixed xMin xMax) (axisFixed yMin yMax) (axisFixed zMin zMax) ∨
      drawRegion xMin xMax yMin yMax zMin zMax =
        RegionPrimitive.volume xMin xMax yMin yMax zMin zMax) := by
  refine ⟨by simp [axisFixed], by simp [axisFixed], by simp [axisFixed], ?_, ?_⟩
  · unfold drawRegion axisFixed fixedCount
    dsimp only
    generalize decide (xMax - xMin < 1 / 100) = bx
    generalize decide (yMax - yMin < 1 / 100) = b
    generalize decide (zMax - zMin < 1 / 100) = bz
    cases bx <;> cases b <;> cases bz <;> rfl
  · unfold drawRegion axisFixed
    dsimp only
    generalize decide (xMax - xMin < 1 / 100) = bx
    generalize decide (yMax - yMin < 1 / 100) = b
    generalize decide (zMax - zMin < 1 / 100) = bz
    cases bx <;> cases b <;> cases bz <;> simp

/-- C2: for every axis range and every condition, the per-axis resolution of
`visualizeRegion` gives the whole range for no condition, `[v, v]` for `= v`,
`[min, v]` for `<= v`, `[v, max]` for `>= v` and `[min, max]` of a slab unchanged, each
axis on its own; unless it alerts that no condition is set, `visualizeRegion` draws
`drawRegion` of exactly these six bounds. -/
theorem visualizeRegion_resolves_axes (axisRange : AxisRange) (v mn mx : ℚ)
    (xCond yCond zCond : AxisCondition) :
    resolveAxis axisRange AxisCondition.none = (axisRange.min, axisRange.max) ∧
    resolveAxis axisRange (AxisCondition.single "=" v) = (v, v) ∧
    resolveAxis axisRange (AxisCondition.single "<=" v) = (axisRange.min, v) ∧
    resolveAxis axisRange (AxisCondition.single ">=" v) = (v, axisRange.max) ∧
    resolveAxis axisRange (AxisCondition.slab mn mx) = (mn, mx) ∧
    ((xCond = AxisCondition.none ∧ yCond = AxisCondition.none ∧ zCond = AxisCondition.none ∧
        visualizeRegion axisRange xCond yCond zCond =
          Except.error "Please set at least one condition!") ∨
      visualizeRegion axisRange xCond yCond zCond =
        Except.ok (drawRegion
          (resolveAxis axisRange xCond).1 (resolveAxis axisRange xCond).2
          (resolveAxis axisRange yCond).1 (resolveAxis axisRange yCond).2
          (resolveAxis axisRange zCond).1 (resolveAxis axisRange zCond).2)) := by
  refine ⟨rfl, ?_, ?_, ?_, rfl, ?_⟩
  · simp [resolveAxis]
  · simp [resolveAxis]
  · simp [resolveAxis]
  · cases xCond <;> cases yCond <;> cases zCond <;>
      first
      | exact Or.inl ⟨rfl, rfl, rfl, rfl⟩
      | exact Or.inr rfl

/-- C3 (counterexample): with the slab `2 <= x <= 2.005`, `y = 3` and `z` over `[-5, 5]`,
the axes `x` and `y` are fixed and `z` is free, and the endpoints of the line are
`(2, 3, -5)` and `(2.005, 3, 5)` in user coordinates: they differ on the fixed axis `x`
too. -/
theorem drawLine_fixed_axis_endpoints_differ :
    axisFixed 2 (401 / 200) = true ∧ axisFixed 3 3 = true ∧ axisFixed (-5) 5 = false ∧
    drawRegion 2 (401 / 200) 3 3 (-5) 5 =
      RegionPrimitive.line [Vector3.mk 2 (-5) 3, Vector3.mk (401 / 200) 5 3] ∧
    (Vector3.mk 2 (-5) 3).userCoords = (2, 3, -5) ∧
    (Vector3.mk (401 / 200) 5 3).userCoords = (401 / 200, 3, 5) ∧
    (Vector3.mk 2 (-5) 3).userCoords.1 ≠ (Vector3.mk (401 / 200) 5 3).userCoords.1 := by
  refine ⟨?_, ?_, ?_, ?_, rfl, rfl, ?_⟩ <;>
    norm_num [axisFixed, drawRegion, drawLine, Vector3.userCoords]

/-- C3 (amended): whenever exactly two axes are fixed, `drawRegion` draws the line of
`drawLine`, whose two endpoints are, in user coordinates, the corner of the three minima
and the corner of the three maxima; so on the free axis they carry the minimum and the
maximum of its interval, and when each fixed axis has its minimum equal to its maximum the
endpoints differ on the free axis and on no other. -/
theorem drawLine_endpoints (xMin xMax yMin yMax zMin zMax : ℚ)
    (h : fixedCount (axisFixed xMin xMax) (axisFixed yMin yMax) (axisFixed zMin zMax) = 2) :
    ∃ p0 p1 : Vector3,
      drawRegion xMin xMax yMin yMax zMin zMax = RegionPrimitive.line [p0, p1] ∧
      drawLine xMin xMax yMin yMax zMin zMax
        (axisFixed xMin xMax) (axisFixed yMin yMax) (axisFixed zMin zMax) = [p0, p1] ∧
      p0.userCoords = (xMin, yMin, zMin) ∧ p1.userCoords = (xMax, yMax, zMax) ∧
      ((axisFixed xMin xMax = true → xMin = xMax) →
       (axisFixed yMin yMax = true → yMin = yMax) →
       (axisFixed zMin zMax = true → zMin = zMax) →
        (p0.userCoords.1 ≠ p1.userCoords.1 ↔ axisFixed xMin xMax = false) ∧
        (p0.userCoords.2.1 ≠ p1.userCoords.2.1 ↔ axisFixed yMin yMax = false) ∧
        (p0.userCoords.2.2 ≠ p1.userCoords.2.2 ↔ axisFixed zMin zMax = false)) := by
  have key : ∀ bx b bz : Bool, (bx = false → xMin ≠ xMax) → (b = false → yMin ≠ yMax) →
      (bz = false → zMin ≠ zMax) → fixedCount bx b bz = 2 →
      ∃ p0 p1 : Vector3,
        (if (bx && b && bz) = true then
            RegionPrimitive.point
              (Vector3.mk ((xMax + xMin) / 2) ((zMax + zMin) / 2) ((yMax + yMin) / 2))
          else if ((bx && b) || (bx && bz) || (b && bz)) = true then
            RegionPrimitive.line (drawLine xMin xMax yMin yMax zMin zMax bx b bz)
          else if (bx || b || bz) = true then
            RegionPrimitive.plane xMin xMax yMin yMax zMin zMax bx b bz
          else RegionPrimitive.volume xMin xMax yMin yMax zMin zMax) =
          RegionPrimitive.line [p0, p1] ∧
        drawLine xMin xMax yMin yMax zMin zMax bx b bz = [p0, p1] ∧
        p0.userCoords = (xMin, yMin, zMin) ∧ p1.userCoords = (xMax, yMax, zMax) ∧
        ((bx = true → xMin = xMax) → (b = true → yMin = yMax) → (bz = true → zMin = zMax) →
          (p0.userCoords.1 ≠ p1.userCoords.1 ↔ bx = false) ∧
          (p0.userCoords.2.1 ≠ p1.userCoords.2.1 ↔ b = false) ∧
          (p0.userCoords.2.2 ≠ p1.userCoords.2.2 ↔ bz = false)) := by
    intro bx b bz hx hy hz hc
    refine ⟨Vector3.mk xMin zMin yMin, Vector3.mk xMax zMax yMax, ?_⟩
    cases bx <;> cases b <;> cases bz <;>
      first
      | (exfalso; revert hc; decide)
      | (refine ⟨by simp [drawLine], by simp [drawLine], rfl, rfl, fun ex ey ez => ?_⟩
         simp only [Vector3.userCoords, ne_eq]
         simp at ex ey ez hx hy hz
         simp [*])
  exact key _ _ _ axisFixed_false_ne axisFixed_false_ne axisFixed_false_ne h

/-- C3 (witness): the example of the specification, `x = 2`, `y = 3` and `z` unconstrained
over `[-5, 5]`, has exactly two fixed axes, and its endpoints are `(2, 3, -5)` and
`(2, 3, 5)`. -/
theorem drawLine_endpoints_witness :
    fixedCount (axisFixed 2 2) (axisFixed 3 3) (axisFixed (-5) 5) = 2 ∧
    ∃ p0 p1 : Vector3,
      drawRegion 2 2 3 3 (-5) 5 = RegionPrimitive.line [p0, p1] ∧
      drawLine 2 2 3 3 (-5) 5 (axisFixed 2 2) (axisFixed 3 3) (axisFixed (-5) 5) = [p0, p1] ∧
      p0.userCoords = (2, 3, -5) ∧ p1.userCoords = (2, 3, 5) ∧
      ((axisFixed 2 2 = true → (2 : ℚ) = 2) →
       (axisFixed 3 3 = true → (3 : ℚ) = 3) →
       (axisFixed (-5) 5 = true → (-5 : ℚ) = 5) →
        (p0.userCoords.1 ≠ p1.userCoords.1 ↔ axisFixed 2 2 = false) ∧
        (p0.userCoords.2.1 ≠ p1.userCoords.2.1 ↔ axisFixed 3 3 = false) ∧
        (p0.userCoords.2.2 ≠ p1.userCoords.2.2 ↔ axisFixed (-5) 5 = false)) :=
  ⟨by norm_num [fixedCount, axisFixed],
   drawLine_endpoints 2 2 3 3 (-5) 5 (by norm_num [fixedCount, axisFixed])⟩

/-! ## Adaptive axis range -/

theorem IsMaxOf.append {m0 r r2 : ℚ} {vs ws : List ℚ} (h1 : IsMaxOf m0 vs r)
    (h2 : IsMaxOf r ws r2) : IsMaxOf m0 (vs ++ ws) r2 := by
  obtain ⟨a1, b1, c1⟩ := h1
  obtain ⟨a2, b2, c2⟩ := h2
  refine ⟨le_trans a1 a2, ?_, ?_⟩
  · intro v hv
    rcases List.mem_append.1 hv with hv | hv
    · exact le_trans (b1 v hv) a2
    · exact b2 v hv
  · rcases c2 with c2 | c2
    · rcases c1 with c1 | c1
      · exact Or.inl (c2.trans c1)
      · exact Or.inr (List.mem_append.2 (Or.inl (c2 ▸ c1)))
    · exact Or.inr (List.mem_append.2 (Or.inr c2))

theorem foldl_updateMax_isMaxOf (nums : List (List Char)) (m : ℚ) :
    IsMaxOf m (nums.map parseFloat) (nums.foldl updateMax m) := by
  induction nums generalizing m with
  | nil => exact ⟨le_refl _, by simp, Or.inl rfl⟩
  | cons n ns ih =>
    have h1 : IsMaxOf m [parseFloat n] (updateMax m n) := by
      unfold updateMax
      dsimp only
      split
      · next h => exact ⟨le_of_lt h, by simp, Or.inr (by simp)⟩
      · next h => exact ⟨le_refl _, by simpa using h, Or.inl rfl⟩
    exact h1.append (ih _)

theorem matchNumbers_nil : matchNumbers [] = [] := by
  simp [matchNumbers]

theorem scanEquation_isMaxOf (input : Option String) (m : ℚ) :
    IsMaxOf m (literalsOf input) (scanEquation m input) := by
  cases input with
  | none => exact ⟨le_refl _, by simp [literalsOf], Or.inl rfl⟩
  | some value =>
    unfold scanEquation literalsOf
    dsimp only
    split
    · next h =>
      rw [List.isEmpty_iff] at h
      rw [h, matchNumbers_nil]
      exact ⟨le_refl _, by simp, Or.inl rfl⟩
    · exact foldl_updateMax_isMaxOf _ _

theorem foldl_scanEquation_isMaxOf (inputs : List (Option String)) (m : ℚ) :
    IsMaxOf m (literalValues inputs) (inputs.foldl scanEquation m) := by
  induction inputs generalizing m with
  | nil => exact ⟨le_refl _, by simp [literalValues], Or.inl rfl⟩
  | cons i is ih =>
    have := (scanEquation_isMaxOf i m).append (ih (scanEquation m i))
    simpa [literalValues] using this

theorem maxLiteral_isMaxOf (inputs : List (Option String)) :
    IsMaxOf 5 (literalValues inputs) (maxLiteral inputs) :=
  foldl_scanEquation_isMaxOf inputs 5

/-- C4 (counterexample): the text `x^2+y^2=200` holds the literals 2, 2 and 200, and
`calculateAxisRange` returns `{min: -100, max: 100}`: the extent 100 is not greater than or
equal to the largest literal 200. -/
theorem calculateAxisRange_caps_at_100 :
    literalValues [some "x^2+y^2=200"] = [2, 2, 200] ∧
    calculateAxisRange [some "x^2+y^2=200"] = AxisRange.mk (-100) 100 ∧
    ¬ ((200 : ℚ) ≤ (calculateAxisRange [some "x^2+y^2=200"]).max) := by
  have hm : matchNumbers (trim "x^2+y^2=200".data) = ["2".data, "2".data, "200".data] := by
    have : trim "x^2+y^2=200".data = "x^2+y^2=200".data := by decide
    rw [this]
    simp [matchNumbers, isDigit]
  have hp2 : parseFloat "2".data = 2 := by
    simp [parseFloat, isDigit, digitsValue, digitValue]
  have hp200 : parseFloat "200".data = 200 := by
    simp [parseFloat, isDigit, digitsValue, digitValue]
  have hl : literalValues [some "x^2+y^2=200"] = [2, 2, 200] := by
    simp [literalValues, literalsOf, hm, hp2, hp200]
  have hM : maxLiteral [some "x^2+y^2=200"] = 200 := by
    have he : (trim "x^2+y^2=200".data).isEmpty = false := by decide
    simp only [maxLiteral, List.foldl, scanEquation, he, hm, updateMax, hp2, hp200]
    norm_num
  have hr : calculateAxisRange [some "x^2+y^2=200"] = AxisRange.mk (-100) 100 := by
    simp only [calculateAxisRange, hM]
    norm_num
  refine ⟨hl, hr, ?_⟩
  rw [hr]
  norm_num

/-- C4 (amended): for every collection of equation texts, `calculateAxisRange` returns a
symmetric range `{min: -E, max: E}` with `E` one of the tiers 5, 10, 20, 50, 100; `E = 5`
when no literal exceeds 5; when no literal exceeds 100, `E` is greater than or equal to
every literal found and is the smallest tier that is; and `E = 100` when a literal exceeds
100. -/
theorem calculateAxisRange_eq_tier (inputs : List (Option String)) :
    ∃ E : ℚ, calculateAxisRange inputs = AxisRange.mk (-E) E ∧ E ∈ tiers ∧
      ((∀ v ∈ literalValues inputs, v ≤ 5) → E = 5) ∧
      ((∀ v ∈ literalValues inputs, v ≤ 100) →
        (∀ v ∈ literalValues inputs, v ≤ E) ∧
        ∀ t ∈ tiers, (∀ v ∈ literalValues inputs, v ≤ t) → E ≤ t) ∧
      ((∃ v ∈ literalValues inputs, 100 < v) → E = 100) := by
  obtain ⟨h5, hle, hmem⟩ := maxLiteral_isMaxOf inputs
  have hbound : ∀ t : ℚ, 5 ≤ t → (∀ v ∈ literalValues inputs, v ≤ t) → maxLiteral inputs ≤ t := by
    intro t ht hv
    rcases hmem with h | h
    · rw [h]; exact ht
    · exact hv _ h
  unfold calculateAxisRange
  dsimp only
  split_ifs with c1 c2 c3 c4
  · refine ⟨5, rfl, by simp [tiers], fun _ => rfl, fun _ => ⟨fun v hv => le_trans (hle v hv) c1, ?_⟩, ?_⟩
    · intro t ht _
      simp [tiers] at ht
      rcases ht with rfl | rfl | rfl | rfl | rfl <;> norm_num
    · rintro ⟨v, hv, h100⟩
      linarith [hle v hv]
  · refine ⟨10, rfl, by simp [tiers], ?_, fun _ => ⟨fun v hv => le_trans (hle v hv) c2, ?_⟩, ?_⟩
    · intro h
      exact absurd (hbound 5 (le_refl _) h) c1
    · intro t ht hv
      simp [tiers] at ht
      rcases ht with rfl | rfl | rfl | rfl | rfl <;> first | exact absurd (hbound _ (by norm_num) hv) (by assumption) | norm_num
    · rintro ⟨v, hv, h100⟩
      linarith [hle v hv]
  · refine ⟨20, rfl, by simp [tiers], ?_, fun _ => ⟨fun v hv => le_trans (hle v hv) c3, ?_⟩, ?_⟩
    · intro h
      exact absurd (hbound 5 (le_refl _) h) c1
    · intro t ht hv
      simp [tiers] at ht
      rcases ht with rfl | rfl | rfl | rfl | rfl <;> first | exact absurd (hbound _ (by norm_num) hv) (by assumption) | norm_num
    · rintro ⟨v, hv, h100⟩
      linarith [hle v hv]
  · refine ⟨50, rfl, by simp [tiers], ?_, fun _ => ⟨fun v hv => le_trans (hle v hv) c4, ?_⟩, ?_⟩
    · intro h
      exact absurd (hbound 5 (le_refl _) h) c1
    · intro t ht hv
      simp [tiers] at ht
      rcases ht with rfl | rfl | rfl | rfl | rfl <;> first | exact absurd (hbound _ (by norm_num) hv) (by assumption) | norm_num
    · rintro ⟨v, hv, h100⟩
      linarith [hle v hv]
  · refine ⟨100, rfl, by simp [tiers], ?_, fun h => ⟨h, ?_⟩, fun _ => rfl⟩
    · intro h
      exact absurd (hbound 5 (le_refl _) h) c1
    · intro t ht hv
      simp [tiers] at ht
      rcases ht with rfl | rfl | rfl | rfl | rfl <;> first | exact absurd (hbound _ (by norm_num) hv) (by assumption) | norm_num

/-- C4 (witness): a text containing the literal 37 selects the range of extent 50, texts
whose only literal is 5 select extent 5, and the theorem holds at the first of them. -/
theorem calculateAxisRange_eq_tier_witness :
    literalValues [some "x^2+y^2=37"] = [2, 2, 37] ∧
    calculateAxisRange [some "x^2+y^2=37"] = AxisRange.mk (-50) 50 ∧
    literalValues [some "x+y=5", none, some " "] = [5] ∧
    calculateAxisRange [some "x+y=5", none, some " "] = AxisRange.mk (-5) 5 ∧
    ∃ E : ℚ, calculateAxisRange [some "x^2+y^2=37"] = AxisRange.mk (-E) E ∧ E ∈ tiers ∧
      ((∀ v ∈ literalValues [some "x^2+y^2=37"], v ≤ 5) → E = 5) ∧
      ((∀ v ∈ literalValues [some "x^2+y^2=37"], v ≤ 100) →
        (∀ v ∈ literalValues [some "x^2+y^2=37"], v ≤ E) ∧
        ∀ t ∈ tiers, (∀ v ∈ literalValues [some "x^2+y^2=37"], v ≤ t) → E ≤ t) ∧
      ((∃ v ∈ literalValues [some "x^2+y^2=37"], 100 < v) → E = 100) := by
  have hm : matchNumbers (trim "x^2+y^2=37".data) = ["2".data, "2".data, "37".data] := by
    have : trim "x^2+y^2=37".data = "x^2+y^2=37".data := by decide
    rw [this]
    simp [matchNumbers, isDigit]
  have hm5 : matchNumbers (trim "x+y=5".data) = ["5".data] := by
    have : trim "x+y=5".data = "x+y=5".data := by decide
    rw [this]
    simp [matchNumbers, isDigit]
  have hmb : matchNumbers (trim " ".data) = [] := by
    have : trim " ".data = [] := by decide
    rw [this]
    simp [matchNumbers]
  have hp2 : parseFloat "2".data = 2 := by
    simp [parseFloat, isDigit, digitsValue, digitValue]
  have hp5 : parseFloat "5".data = 5 := by
    simp [parseFloat, isDigit, digitsValue, digitValue]
  have hp37 : parseFloat "37".data = 37 := by
    simp [parseFloat, isDigit, digitsValue, digitValue]
  have he : (trim "x^2+y^2=37".data).isEmpty = false := by decide
  have he5 : (trim "x+y=5".data).isEmpty = false := by decide
  have heb : (trim " ".data).isEmpty = true := by decide
  have hM : maxLiteral [some "x^2+y^2=37"] = 37 := by
    simp only [maxLiteral, List.foldl, scanEquation, he, hm, updateMax, hp2, hp37]
    norm_num
  have hM5 : maxLiteral [some "x+y=5", none, some " "] = 5 := by
    simp only [maxLiteral, List.foldl, scanEquation, he5, heb, hm5, updateMax, hp5]
    norm_num
  refine ⟨?_, ?_, ?_, ?_, calculateAxisRange_eq_tier [some "x^2+y^2=37"]⟩
  · simp [literalValues, literalsOf, hm, hp2, hp37]
  · simp only [calculateAxisRange, hM]
    norm_num
  · simp [literalValues, literalsOf, hm5, hmb, hp5]
  · simp only [calculateAxisRange, hM5]
    norm_num

/-! ## Strings and equation validation -/

theorem normalizeCase_eq_map (s : List Char) : normalizeCase s = s.map lowerChar := by
  unfold normalizeCase replaceAllChar
  rw [List.map_map, List.map_map]
  apply List.map_congr_left
  intro c _
  simp only [Function.comp, lowerChar]
  by_cases hX : c = 'X'
  · subst hX; decide
  · by_cases hY : c = 'Y'
    · subst hY; decide
    · by_cases hZ : c = 'Z'
      · subst hZ; decide
      · simp [hX, hY, hZ]

theorem normalizeCase_eq_lowerXYZ (s : List Char) : normalizeCase s = lowerXYZ s :=
  normalizeCase_eq_map s

theorem lowerChar_cases (c : Char) :
    lowerChar c = c ∨ lowerChar c = 'x' ∨ lowerChar c = 'y' ∨ lowerChar c = 'z' := by
  unfold lowerChar
  split_ifs <;> simp

theorem lowerChar_eq_iff (c d : Char) (hx : d ≠ 'x') (hy : d ≠ 'y') (hz : d ≠ 'z')
    (hX : d ≠ 'X') (hY : d ≠ 'Y') (hZ : d ≠ 'Z') : lowerChar c = d ↔ c = d := by
  unfold lowerChar
  split_ifs with h1 h2 h3
  · subst h1; exact ⟨fun h => absurd h.symm hx, fun h => absurd h.symm hX⟩
  · subst h2; exact ⟨fun h => absurd h.symm hy, fun h => absurd h.symm hY⟩
  · subst h3; exact ⟨fun h => absurd h.symm hz, fun h => absurd h.symm hZ⟩
  · exact Iff.rfl

theorem lowerChar_eq_equals (c : Char) : lowerChar c = '=' ↔ c = '=' :=
  lowerChar_eq_iff c '=' (by decide) (by decide) (by decide) (by decide) (by decide) (by decide)

theorem lowerChar_eq_open (c : Char) : lowerChar c = '(' ↔ c = '(' :=
  lowerChar_eq_iff c '(' (by decide) (by decide) (by decide) (by decide) (by decide) (by decide)

theorem lowerChar_eq_close (c : Char) : lowerChar c = ')' ↔ c = ')' :=
  lowerChar_eq_iff c ')' (by decide) (by decide) (by decide) (by decide) (by decide) (by decide)

theorem isWhiteSpace_lowerChar (c : Char) : isWhiteSpace (lowerChar c) = isWhiteSpace c := by
  unfold lowerChar
  split_ifs with h1 h2 h3
  · subst h1; decide
  · subst h2; decide
  · subst h3; decide
  · rfl

theorem isWhiteSpace_equals : isWhiteSpace '=' = false := by decide

theorem trim_eq_nil_iff (s : List Char) : trim s = [] ↔ ∀ c ∈ s, isWhiteSpace c = true := by
  unfold trim
  rw [List.reverse_eq_nil_iff, List.dropWhile_eq_nil_iff]
  constructor
  · intro h
    have h2 : s.dropWhile isWhiteSpace = [] := by
      by_contra hne
      have hh := List.head_dropWhile_not isWhiteSpace s hne
      have hm : (s.dropWhile isWhiteSpace).head hne ∈ (s.dropWhile isWhiteSpace).reverse :=
        List.mem_reverse.2 (List.head_mem hne)
      rw [h _ hm] at hh
      exact absurd hh (by simp)
    exact List.dropWhile_eq_nil_iff.1 h2
  · intro h c hc
    rw [List.mem_reverse] at hc
    exact h c ((List.dropWhile_sublist isWhiteSpace).subset hc)

theorem split_spec (s : List Char) :
    split '=' s = leftOf s ::
      (if '=' ∈ s then split '=' ((s.dropWhile (fun c => c != '=')).drop 1) else []) := by
  induction s with
  | nil => simp [split, leftOf]
  | cons c cs ih =>
    by_cases h : c = '='
    · subst h
      simp [split, leftOf]
    · have hne : ('=' : Char) ≠ c := fun e => h e.symm
      rw [split, if_neg h, ih]
      simp [leftOf, h, hne]

theorem split_get_zero (s : List Char) : (split '=' s).get? 0 = some (leftOf s) := by
  rw [split_spec]; rfl

theorem split_get_one (s : List Char) (h : '=' ∈ s) :
    (split '=' s).get? 1 = some (rightOf s) := by
  rw [split_spec, if_pos h, split_spec]
  rfl

theorem leftOf_map (s : List Char) : leftOf (s.map lowerChar) = (leftOf s).map lowerChar := by
  unfold leftOf
  induction s with
  | nil => rfl
  | cons c cs ih =>
    by_cases h : c = '='
    · subst h
      have h2 : lowerChar '=' = '=' := by decide
      simp [h2]
    · have h2 : ¬ lowerChar c = '=' := fun e => h ((lowerChar_eq_equals c).1 e)
      simp [h, h2, ih]

theorem dropEq_map (s : List Char) :
    ((s.map lowerChar).dropWhile (fun c => c != '=')).drop 1 =
      ((s.dropWhile (fun c => c != '=')).drop 1).map lowerChar := by
  induction s with
  | nil => rfl
  | cons c cs ih =>
    by_cases h : c = '='
    · subst h
      have h2 : lowerChar '=' = '=' := by decide
      simp [h2]
    · have h2 : ¬ lowerChar c = '=' := fun e => h ((lowerChar_eq_equals c).1 e)
      simpa [h, h2] using ih

theorem rightOf_map (s : List Char) :
    rightOf (s.map lowerChar) = (rightOf s).map lowerChar := by
  unfold rightOf
  rw [dropEq_map]
  exact leftOf_map _

theorem mem_map_lowerChar_equals (s : List Char) : '=' ∈ s.map lowerChar ↔ '=' ∈ s := by
  simp only [List.mem_map]
  constructor
  · rintro ⟨c, hc, e⟩
    rw [(lowerChar_eq_equals c).1 e] at hc
    exact hc
  · intro h
    exact ⟨'=', h, by decide⟩

theorem trim_map_eq_nil_iff (s : List Char) : trim (s.map lowerChar) = [] ↔ trim s = [] := by
  rw [trim_eq_nil_iff, trim_eq_nil_iff]
  simp [isWhiteSpace_lowerChar]


theorem emptySide_some (l : List Char) : emptySide (some l) = true ↔ trim l = [] := by
  unfold emptySide
  simp only [Bool.or_eq_true, List.isEmpty_iff]
  constructor
  · rintro (h | h)
    · subst h; rfl
    · exact h
  · exact Or.inr

theorem contains_equals (s : List Char) : s.contains '=' = true ↔ '=' ∈ s := by
  simp

theorem nonblank_of_mem_equals (s : List Char) (h : '=' ∈ s) :
    (s.isEmpty || (trim s).isEmpty) = false := by
  have h1 : s ≠ [] := List.ne_nil_of_mem h
  have h2 : trim s ≠ [] := by
    intro e
    have := (trim_eq_nil_iff s).1 e '=' h
    rw [isWhiteSpace_equals] at this
    exact absurd this (by simp)
  simp [List.isEmpty_iff, h1, h2]

theorem structuralError_left (s : List Char) (h : '=' ∈ s) (hl : trim (leftOf s) = []) :
    structuralError s = some "Left side of equation cannot be empty" := by
  unfold structuralError
  have h1 : s.contains '=' = true := (contains_equals s).2 h
  have h2 : emptySide ((split '=' s).get? 0) = true := by
    rw [split_get_zero]; exact (emptySide_some _).2 hl
  simp only [h1, h2, Bool.and_self, if_true]

theorem structuralError_right (s : List Char) (h : '=' ∈ s) (hl : trim (leftOf s) ≠ [])
    (hr : trim (rightOf s) = []) :
    structuralError s = some "Right side of equation cannot be empty" := by
  unfold structuralError
  have h1 : s.contains '=' = true := (contains_equals s).2 h
  have h2 : emptySide ((split '=' s).get? 0) = false := by
    rw [split_get_zero]
    cases hh : emptySide (some (leftOf s))
    · rfl
    · exact absurd ((emptySide_some _).1 hh) hl
  have h3 : emptySide ((split '=' s).get? 1) = true := by
    rw [split_get_one s h]; exact (emptySide_some _).2 hr
  simp only [h1, h2, h3, Bool.and_self, Bool.and_false, if_true]
  rfl

theorem validate_of_structuralError (evaluate : Evaluator) (text : String) (msg : String)
    (hne : (text.data.isEmpty || (trim text.data).isEmpty) = false)
    (h : structuralError (normalizeCase text.data) = some msg) :
    validateEquationSyntax evaluate text = Validation.invalid msg := by
  unfold validateEquationSyntax
  simp only [hne, h]
  rfl

/-- C5 (amended): for every text that contains `=`, if the part before the first `=` is
empty or white space the text is rejected with the diagnostic of the left side, otherwise
if the part between the first `=` and the next `=` (or the end) is empty or white space it
is rejected with the diagnostic of the right side; so every accepted text that contains `=`
has both these parts non-empty after trimming.  The number of `=` is not part of the
statement: a text with more than one `=` can be accepted. -/
theorem validateEquationSyntax_sides_nonempty (evaluate : Evaluator) (text : String)
    (h : '=' ∈ text.data) :
    (trim (leftOf text.data) = [] →
      validateEquationSyntax evaluate text =
        Validation.invalid "Left side of equation cannot be empty") ∧
    (trim (leftOf text.data) ≠ [] → trim (rightOf text.data) = [] →
      validateEquationSyntax evaluate text =
        Validation.invalid "Right side of equation cannot be empty") ∧
    ((validateEquationSyntax evaluate text).isValid = true →
      trim (leftOf text.data) ≠ [] ∧ trim (rightOf text.data) ≠ []) := by
  have hne := nonblank_of_mem_equals text.data h
  have hmem : '=' ∈ normalizeCase text.data := by
    rw [normalizeCase_eq_map]; exact (mem_map_lowerChar_equals _).2 h
  have hL : trim (leftOf (normalizeCase text.data)) = [] ↔ trim (leftOf text.data) = [] := by
    rw [normalizeCase_eq_map, leftOf_map]; exact trim_map_eq_nil_iff _
  have hR : trim (rightOf (normalizeCase text.data)) = [] ↔ trim (rightOf text.data) = [] := by
    rw [normalizeCase_eq_map, rightOf_map]; exact trim_map_eq_nil_iff _
  have p1 : trim (leftOf text.data) = [] →
      validateEquationSyntax evaluate text =
        Validation.invalid "Left side of equation cannot be empty" := fun hl =>
    validate_of_structuralError evaluate text _ hne (structuralError_left _ hmem (hL.2 hl))
  have p2 : trim (leftOf text.data) ≠ [] → trim (rightOf text.data) = [] →
      validateEquationSyntax evaluate text =
        Validation.invalid "Right side of equation cannot be empty" := fun hl hr =>
    validate_of_structuralError evaluate text _ hne
      (structuralError_right _ hmem (fun e => hl (hL.1 e)) (hR.2 hr))
  refine ⟨p1, p2, ?_⟩
  intro hv
  have hl : trim (leftOf text.data) ≠ [] := by
    intro e
    rw [p1 e] at hv
    exact absurd hv (by decide)
  refine ⟨hl, ?_⟩
  intro e
  rw [p2 hl e] at hv
  exact absurd hv (by decide)


theorem tryParse_of_mem (evaluate : Evaluator) (s : List Char) (h : '=' ∈ s) :
    tryParse evaluate s =
      match evaluate (String.mk (trim (leftOf s))) testScope with
      | .error m => .error m
      | .ok _ =>
        match evaluate (String.mk (trim (rightOf s))) testScope with
        | .error m => .error m
        | .ok _ => .ok () := by
  unfold tryParse
  have h1 : s.contains '=' = true := (contains_equals s).2 h
  have h2 : split '=' s = leftOf s :: rightOf s ::
      (if '=' ∈ (s.dropWhile (fun c => c != '=')).drop 1 then
        split '=' ((((s.dropWhile (fun c => c != '=')).drop 1).dropWhile
          (fun c => c != '=')).drop 1) else []) := by
    rw [split_spec, if_pos h, split_spec]
    rfl
  rw [if_pos h1, h2]
  dsimp only
  cases evaluate (String.mk (trim (leftOf s))) testScope with
  | error m => rfl
  | ok v =>
    cases evaluate (String.mk (trim (rightOf s))) testScope with
    | error m => rfl
    | ok w => rfl

theorem tryParse_of_not_mem (evaluate : Evaluator) (s : List Char) (h : '=' ∉ s) :
    tryParse evaluate s =
      match evaluate (String.mk s) testScope with
      | .error m => .error m
      | .ok _ => .ok () := by
  unfold tryParse
  have h1 : ¬ (s.contains '=' = true) := fun e => h ((contains_equals s).1 e)
  rw [if_neg h1]
  cases evaluate (String.mk s) testScope with
  | error m => rfl
  | ok v => rfl

theorem validate_of_pass (evaluate : Evaluator) (text : String)
    (hne : (text.data.isEmpty || (trim text.data).isEmpty) = false)
    (h : structuralError (normalizeCase text.data) = none) :
    validateEquationSyntax evaluate text =
      match tryParse evaluate (normalizeCase text.data) with
      | .ok _ => Validation.valid (String.mk (normalizeCase text.data))
      | .error message => Validation.invalid ("Syntax error: " ++ message) := by
  unfold validateEquationSyntax
  simp only [hne, h]
  rfl

theorem parsesOk_iff (evaluate : Evaluator) (s : List Char) :
    ParsesOk evaluate s ↔ tryParse evaluate s = .ok () := by
  unfold ParsesOk
  by_cases h : '=' ∈ s
  · rw [if_pos h, tryParse_of_mem evaluate s h]
    cases evaluate (String.mk (trim (leftOf s))) testScope with
    | error m => simp
    | ok v =>
      cases evaluate (String.mk (trim (rightOf s))) testScope with
      | error m => simp
      | ok w => simp
  · rw [if_neg h, tryParse_of_not_mem evaluate s h]
    cases evaluate (String.mk s) testScope with
    | error m => simp
    | ok v => simp

theorem parseFails_iff (evaluate : Evaluator) (s : List Char) (msg : String) :
    ParseFails evaluate s msg ↔ tryParse evaluate s = .error msg := by
  unfold ParseFails
  by_cases h : '=' ∈ s
  · rw [if_pos h, tryParse_of_mem evaluate s h]
    cases evaluate (String.mk (trim (leftOf s))) testScope with
    | error m => simp
    | ok v =>
      cases evaluate (String.mk (trim (rightOf s))) testScope with
      | error m => simp
      | ok w => simp
  · rw [if_neg h, tryParse_of_not_mem evaluate s h]
    cases evaluate (String.mk s) testScope with
    | error m => simp
    | ok v => simp

/-- C9: for every text that is not blank and whose normalised form (every `X`, `Y`, `Z`
replaced by `x`, `y`, `z`) passes all the structural checks, the result is valid exactly
when the evaluator evaluates, at `x = y = z = 1` and without error, the normalised text, or
the two trimmed sides of its `=` when it has one; the result is then valid with the
normalised text as `normalizedEquation`; when the evaluation fails with a message the result
is invalid with `Syntax error: ` followed by that message; and one of the two happens: the
function always returns a result. -/
theorem validateEquationSyntax_parse_stage (evaluate : Evaluator) (text : String)
    (hne : trim text.data ≠ [])
    (hs : structuralError (lowerXYZ text.data) = none) :
    ((validateEquationSyntax evaluate text).isValid = true ↔
      ParsesOk evaluate (lowerXYZ text.data)) ∧
    (ParsesOk evaluate (lowerXYZ text.data) →
      validateEquationSyntax evaluate text =
        Validation.valid (String.mk (lowerXYZ text.data))) ∧
    (∀ msg, ParseFails evaluate (lowerXYZ text.data) msg →
      validateEquationSyntax evaluate text = Validation.invalid ("Syntax error: " ++ msg)) ∧
    (ParsesOk evaluate (lowerXYZ text.data) ∨
      ∃ msg, ParseFails evaluate (lowerXYZ text.data) msg) := by
  have hne2 : (text.data.isEmpty || (trim text.data).isEmpty) = false := by
    have h1 : text.data ≠ [] := by
      intro e
      rw [e] at hne
      exact hne rfl
    simp [List.isEmpty_iff, h1, hne]
  rw [← normalizeCase_eq_lowerXYZ] at hs ⊢
  have hv := validate_of_pass evaluate text hne2 hs
  simp only [parsesOk_iff, parseFails_iff]
  rw [hv]
  cases tryParse evaluate (normalizeCase text.data) with
  | error m => simp [Validation.isValid]
  | ok u => simp [Validation.isValid]

/-- C5 (counterexample): the text `x=1=2` contains two `=` and is accepted, by the
evaluator that knows `x` and `1` and by every evaluator that evaluates `x` and `1` without
error: the test of the empty sides and the trial evaluation take the first two pieces of
the split, and no check counts the `=`. -/
theorem validateEquationSyntax_accepts_two_equals :
    "x=1=2".data.count '=' = 2 ∧
    validateEquationSyntax
      (tableEvaluator [("x", fun scope => some scope.x), ("1", fun _ => some 1)]) "x=1=2" =
      Validation.valid "x=1=2" ∧
    ∀ evaluate : Evaluator,
      (∃ v, evaluate "x" testScope = .ok v) → (∃ v, evaluate "1" testScope = .ok v) →
      validateEquationSyntax evaluate "x=1=2" = Validation.valid "x=1=2" := by
  have hgen : ∀ evaluate : Evaluator,
      (∃ v, evaluate "x" testScope = .ok v) → (∃ v, evaluate "1" testScope = .ok v) →
      validateEquationSyntax evaluate "x=1=2" = Validation.valid "x=1=2" := by
    rintro evaluate ⟨v, hv⟩ ⟨w, hw⟩
    have hs : structuralError (normalizeCase "x=1=2".data) = none := by decide
    rw [validate_of_pass evaluate "x=1=2" (by decide) hs,
      tryParse_of_mem evaluate _ (by decide)]
    have e1 : String.mk (trim (leftOf (normalizeCase "x=1=2".data))) = "x" := by decide
    have e2 : String.mk (trim (rightOf (normalizeCase "x=1=2".data))) = "1" := by decide
    have e3 : String.mk (normalizeCase "x=1=2".data) = "x=1=2" := by decide
    rw [e1, e2, hv, hw, e3]
  refine ⟨by decide, hgen _ ⟨_, rfl⟩ ⟨_, rfl⟩, hgen⟩

/-! ## Parentheses -/

theorem parenBalance_nil : parenBalance [] = 0 := by
  simp [parenBalance]

theorem parenBalance_cons (c : Char) (s : List Char) :
    parenBalance (c :: s) = parenDelta c + parenBalance s := by
  unfold parenBalance parenDelta
  rw [List.count_cons, List.count_cons]
  by_cases h1 : c = '(' <;> by_cases h2 : c = ')'
  · subst h1; exact absurd h2 (by decide)
  · subst h1
    simp
    omega
  · subst h2
    simp
    omega
  · have h3 : ¬ ('(' : Char) = c := fun e => h1 e.symm
    have h4 : ¬ (')' : Char) = c := fun e => h2 e.symm
    simp [h1, h2, h3, h4]

theorem parenScan_step (c : Char) (rest : List Char) (k : Int) :
    parenScan (c :: rest) k =
      if k + parenDelta c < 0 then none else parenScan rest (k + parenDelta c) := by
  have e : (if c = ')' then (if c = '(' then k + 1 else k) - 1
      else (if c = '(' then k + 1 else k)) = k + parenDelta c := by
    unfold parenDelta
    by_cases h1 : c = '(' <;> by_cases h2 : c = ')'
    · subst h1; exact absurd h2 (by decide)
    · simp [h1, h2]
    · simp [h1, h2]; omega
    · simp [h1, h2]
  rw [parenScan]
  simp only [e]

theorem parenScan_none_iff (s : List Char) (k : Int) (hk : 0 ≤ k) :
    parenScan s k = none ↔ ∃ n, n ≤ s.length ∧ k + parenBalance (s.take n) < 0 := by
  induction s generalizing k with
  | nil =>
    simp only [parenScan, List.length_nil, List.take_nil, parenBalance_nil]
    constructor
    · intro h; exact absurd h (by simp)
    · rintro ⟨n, _, h⟩; omega
  | cons c rest ih =>
    rw [parenScan_step]
    split
    · next hneg =>
      refine ⟨fun _ => ⟨1, by simp, ?_⟩, fun _ => rfl⟩
      simp only [List.take_succ_cons, List.take_zero, parenBalance_cons, parenBalance_nil]
      omega
    · next hpos =>
      have hk2 : 0 ≤ k + parenDelta c := by omega
      rw [ih _ hk2]
      constructor
      · rintro ⟨n, hn, h⟩
        refine ⟨n + 1, by simpa using hn, ?_⟩
        rw [List.take_succ_cons, parenBalance_cons]
        omega
      · rintro ⟨n, hn, h⟩
        cases n with
        | zero =>
          simp only [List.take_zero, parenBalance_nil] at h
          omega
        | succ m =>
          refine ⟨m, by simpa using hn, ?_⟩
          rw [List.take_succ_cons, parenBalance_cons] at h
          omega

theorem parenScan_some (s : List Char) (k m : Int) (h : parenScan s k = some m) :
    m = k + parenBalance s := by
  induction s generalizing k with
  | nil =>
    simp only [parenScan, Option.some.injEq] at h
    rw [parenBalance_nil]; omega
  | cons c rest ih =>
    rw [parenScan_step] at h
    split at h
    · exact absurd h (by simp)
    · rw [ih _ h, parenBalance_cons]; omega

theorem structuralError_of_unbalanced (s : List Char) (h : Unbalanced s) :
    ∃ msg, structuralError s = some msg := by
  unfold structuralError
  dsimp only
  split
  · exact ⟨_, rfl⟩
  · split
    · exact ⟨_, rfl⟩
    · cases hp : parenScan s 0 with
      | none => exact ⟨_, rfl⟩
      | some pc =>
        dsimp only
        split
        · exact ⟨_, rfl⟩
        · next hpc =>
          exfalso
          have e := parenScan_some s 0 pc hp
          rcases h with h | h
          · have := (parenScan_none_iff s 0 (le_refl _)).2 (by simpa using h)
            rw [hp] at this
            exact absurd this (by simp)
          · omega

theorem count_map_lowerChar (d : Char) (hd : ∀ c, lowerChar c = d ↔ c = d) (s : List Char) :
    (s.map lowerChar).count d = s.count d := by
  induction s with
  | nil => rfl
  | cons c cs ih =>
    rw [List.map_cons, List.count_cons, List.count_cons, ih]
    by_cases h : c = d
    · have h2 : lowerChar c = d := (hd c).2 h
      rw [h2, h]
    · have h2 : ¬ lowerChar c = d := fun e => h ((hd c).1 e)
      simp [h, h2]

theorem parenBalance_map (s : List Char) :
    parenBalance (s.map lowerChar) = parenBalance s := by
  unfold parenBalance
  rw [count_map_lowerChar '(' lowerChar_eq_open, count_map_lowerChar ')' lowerChar_eq_close]

theorem unbalanced_map (s : List Char) : Unbalanced (s.map lowerChar) ↔ Unbalanced s := by
  unfold Unbalanced
  simp only [← List.map_take, parenBalance_map, List.length_map]

/-- C8: every text in which the running count of `(` minus `)` becomes negative after
some prefix, or is positive at the end, is rejected by `validateEquationSyntax`, whatever
the evaluator; consequently in every accepted text the running count is never negative and
ends at zero. -/
theorem validateEquationSyntax_rejects_unbalanced (evaluate : Evaluator) (text : String) :
    (Unbalanced text.data → ∃ msg, validateEquationSyntax evaluate text = Validation.invalid msg) ∧
    ((validateEquationSyntax evaluate text).isValid = true →
      (∀ n, n ≤ text.data.length → 0 ≤ parenBalance (text.data.take n)) ∧
      parenBalance text.data = 0) := by
  have p1 : Unbalanced text.data →
      ∃ msg, validateEquationSyntax evaluate text = Validation.invalid msg := by
    intro h
    cases hne : (text.data.isEmpty || (trim text.data).isEmpty) with
    | true =>
      refine ⟨"Equation cannot be empty", ?_⟩
      unfold validateEquationSyntax
      simp only [hne]
      rfl
    | false =>
      have h2 : Unbalanced (normalizeCase text.data) := by
        rw [normalizeCase_eq_map]; exact (unbalanced_map _).2 h
      obtain ⟨msg, hmsg⟩ := structuralError_of_unbalanced _ h2
      exact ⟨msg, validate_of_structuralError evaluate text msg hne hmsg⟩
  refine ⟨p1, ?_⟩
  intro hv
  have hnot : ¬ Unbalanced text.data := by
    intro h
    obtain ⟨msg, hmsg⟩ := p1 h
    rw [hmsg] at hv
    simp [Validation.isValid] at hv
  unfold Unbalanced at hnot
  push_neg at hnot
  refine ⟨fun n hn => hnot.1 n hn, ?_⟩
  have h1 := hnot.1 text.data.length (le_refl _)
  rw [List.take_length] at h1
  exact le_antisymm hnot.2 h1

/-- C8 (witness): `x+y=(` is unbalanced and is rejected for its missing closing
parenthesis. -/
theorem validateEquationSyntax_rejects_unbalanced_witness :
    Unbalanced "x+y=(".data ∧
    validateEquationSyntax (tableEvaluator []) "x+y=(" =
      Validation.invalid "Unbalanced parentheses - missing closing )" ∧
    ((Unbalanced "x+y=(".data →
        ∃ msg, validateEquationSyntax (tableEvaluator []) "x+y=(" = Validation.invalid msg) ∧
      ((validateEquationSyntax (tableEvaluator []) "x+y=(").isValid = true →
        (∀ n, n ≤ "x+y=(".data.length → 0 ≤ parenBalance ("x+y=(".data.take n)) ∧
        parenBalance "x+y=(".data = 0)) :=
  ⟨Or.inr (by decide),
   validate_of_structuralError _ _ _ (by decide) (by decide),
   validateEquationSyntax_rejects_unbalanced (tableEvaluator []) "x+y=("⟩

/-- C5 (witness): `=x+1` contains `=` and is rejected for its empty left side, `x+1= `
for its blank right side and `x==1` for the empty part between its two `=`; the text after
a second `=` is still checked by the other checks: `x=1=(` is rejected for its
parenthesis. -/
theorem validateEquationSyntax_sides_nonempty_witness :
    '=' ∈ "=x+1".data ∧
    validateEquationSyntax (tableEvaluator []) "=x+1" =
      Validation.invalid "Left side of equation cannot be empty" ∧
    validateEquationSyntax (tableEvaluator []) "x+1= " =
      Validation.invalid "Right side of equation cannot be empty" ∧
    validateEquationSyntax (tableEvaluator []) "x==1" =
      Validation.invalid "Right side of equation cannot be empty" ∧
    validateEquationSyntax (tableEvaluator []) "x=1=(" =
      Validation.invalid "Unbalanced parentheses - missing closing )" :=
  ⟨by decide,
   (validateEquationSyntax_sides_nonempty (tableEvaluator []) "=x+1" (by decide)).1 (by decide),
   (validateEquationSyntax_sides_nonempty (tableEvaluator []) "x+1= " (by decide)).2.1
     (by decide) (by decide),
   (validateEquationSyntax_sides_nonempty (tableEvaluator []) "x==1" (by decide)).2.1
     (by decide) (by decide),
   validate_of_structuralError (tableEvaluator []) "x=1=(" _ (by decide) (by decide)⟩

/-- C6 (the code at the failing input): on `x+=1` neither regular expression of the
check of operators around `=` matches, because the first one is anchored at the end of the
text, and no structural check rejects the text: for every evaluator the result is whatever
the evaluation of the sides `x+` and `1` gives, valid when both succeed.  The check after
`=` does work: `y=*x` is rejected by it for every evaluator. -/
theorem validateEquationSyntax_operator_before_equals_not_checked :
    operatorBeforeFinalEquals "x+=1".data = false ∧
    operatorAfterEquals "x+=1".data = false ∧
    structuralError (normalizeCase "x+=1".data) = none ∧
    (∀ evaluate : Evaluator,
      validateEquationSyntax evaluate "x+=1" =
        match evaluate "x+" testScope with
        | .error m => Validation.invalid ("Syntax error: " ++ m)
        | .ok _ =>
          match evaluate "1" testScope with
          | .error m => Validation.invalid ("Syntax error: " ++ m)
          | .ok _ => Validation.valid "x+=1") ∧
    (∀ evaluate : Evaluator,
      validateEquationSyntax evaluate "y=*x" =
        Validation.invalid "Cannot have operators immediately before or after =") := by
  refine ⟨by decide, by decide, by decide, ?_, ?_⟩
  · intro evaluate
    rw [validate_of_pass evaluate "x+=1" (by decide) (by decide),
      tryParse_of_mem evaluate _ (by decide)]
    have e1 : String.mk (trim (leftOf (normalizeCase "x+=1".data))) = "x+" := by decide
    have e2 : String.mk (trim (rightOf (normalizeCase "x+=1".data))) = "1" := by decide
    have e3 : String.mk (normalizeCase "x+=1".data) = "x+=1" := by decide
    rw [e1, e2, e3]
    cases evaluate "x+" testScope with
    | error m => rfl
    | ok v =>
      cases evaluate "1" testScope with
      | error m => rfl
      | ok w => rfl
  · intro evaluate
    exact validate_of_structuralError evaluate _ _ (by decide) (by decide)

/-- C7 (the code at the failing input): in `x**2+y**2=4` only the first `**` is removed
before the test, the second one is then found as a run of two operators, and the text is
rejected as having consecutive operators for every evaluator, although its only operator
runs are `**` tokens.  A single `**` passes the check, so does the run `***`, and `x+*y=1`
is rejected. -/
theorem validateEquationSyntax_rejects_second_double_star :
    String.mk (replaceFirst ['*', '*'] [] "x**2+y**2=4".data) = "x2+y**2=4" ∧
    hasOperatorRun (replaceFirst ['*', '*'] [] "x**2+y**2=4".data) = true ∧
    (∀ evaluate : Evaluator,
      validateEquationSyntax evaluate "x**2+y**2=4" =
        Validation.invalid
          "Consecutive operators found (e.g., ++, --, */). Use single operators.") ∧
    hasOperatorRun (replaceFirst ['*', '*'] [] "x**2=4".data) = false ∧
    hasOperatorRun (replaceFirst ['*', '*'] [] "x***2=4".data) = false ∧
    hasOperatorRun (replaceFirst ['*', '*'] [] "x+*y=1".data) = true := by
  refine ⟨by decide, by decide, ?_, by decide, by decide, by decide⟩
  intro evaluate
  exact validate_of_structuralError evaluate _ _ (by decide) (by decide)


theorem equationSides_eq (text : String) :
    equationSides text = (some (leftText text), some (rightText text)) := by
  unfold equationSides leftText rightText
  rw [normalizeCase_eq_lowerXYZ]
  dsimp only
  by_cases h : '=' ∈ lowerXYZ text.data
  · have h1 : (lowerXYZ text.data).contains '=' = true := (contains_equals _).2 h
    rw [if_pos h1, if_pos h, if_pos h]
    have h0 := split_get_zero (lowerXYZ text.data)
    have h2 := split_get_one (lowerXYZ text.data) h
    simp only [List.get?_eq_getElem?] at h0 h2
    simp [List.getElem?_map, h0, h2]
  · have h1 : ¬ ((lowerXYZ text.data).contains '=' = true) := fun e => h ((contains_equals _).1 e)
    rw [if_neg h1, if_neg h, if_neg h]

/-- C10: at every point the scalar field of an equation text is the value of the left
text minus the value of the right text, where the left and right texts are the trimmed
texts before and after `=` of the normalised equation, and the right text is the literal
`0` when there is no `=`; when the evaluation of either side raises an error the field is
not-a-number. -/
theorem scalarField_eq_left_minus_right (evaluate : Evaluator) (text : String) (x y z : ℚ) :
    (∀ l r : Num, evaluate (leftText text) (Scope.mk x y z) = .ok l →
      evaluate (rightText text) (Scope.mk x y z) = .ok r →
      scalarField evaluate text x y z = Num.sub l r) ∧
    (∀ a b : ℚ, evaluate (leftText text) (Scope.mk x y z) = .ok (some a) →
      evaluate (rightText text) (Scope.mk x y z) = .ok (some b) →
      scalarField evaluate text x y z = some (a - b)) ∧
    (((∃ m, evaluate (leftText text) (Scope.mk x y z) = .error m) ∨
      (∃ m, evaluate (rightText text) (Scope.mk x y z) = .error m)) →
      scalarField evaluate text x y z = none) := by
  have key : ∀ l r : Num, evaluate (leftText text) (Scope.mk x y z) = .ok l →
      evaluate (rightText text) (Scope.mk x y z) = .ok r →
      scalarField evaluate text x y z = Num.sub l r := by
    intro l r hl hr
    unfold scalarField
    rw [equationSides_eq]
    simp only [implicitFunc, hl, hr]
  refine ⟨key, fun a b ha hb => key _ _ ha hb, ?_⟩
  intro h
  unfold scalarField
  rw [equationSides_eq]
  rcases h with ⟨m, hm⟩ | ⟨m, hm⟩
  · simp only [implicitFunc, hm]
  · simp only [implicitFunc, hm]
    cases evaluate (leftText text) (Scope.mk x y z) with
    | error e => rfl
    | ok v => rfl

/-- C10 (witness): the sides of `X^2+y^2 = 4` are `x^2+y^2` and `4`, the right side of
`x+y` is `0`; at the point (1, 2, 3) the field is the left value minus 4, and it is
not-a-number when the evaluation of the left side raises. -/
theorem scalarField_eq_left_minus_right_witness :
    leftText "X^2+y^2 = 4" = "x^2+y^2" ∧ rightText "X^2+y^2 = 4" = "4" ∧
    rightText "x+y" = "0" ∧
    scalarField
      (tableEvaluator [("x^2+y^2", fun s => some (s.x ^ 2 + s.y ^ 2)), ("4", fun _ => some 4)])
      "X^2+y^2 = 4" 1 2 3 = some (1 ^ 2 + 2 ^ 2 - 4) ∧
    scalarField (tableEvaluator [("4", fun _ => some 4)]) "X^2+y^2 = 4" 1 2 3 = none :=
  ⟨by decide, by decide, by decide,
   (scalarField_eq_left_minus_right
      (tableEvaluator [("x^2+y^2", fun s => some (s.x ^ 2 + s.y ^ 2)), ("4", fun _ => some 4)])
      "X^2+y^2 = 4" 1 2 3).2.1 _ _ rfl rfl,
   (scalarField_eq_left_minus_right (tableEvaluator [("4", fun _ => some 4)])
      "X^2+y^2 = 4" 1 2 3).2.2 (Or.inl ⟨_, rfl⟩)⟩

/-- C9 (witness): `x^2+y^2=4` passes the structural checks; it is valid with an evaluator
that evaluates both sides, and invalid with the message of the evaluator when the left side
is refused. -/
theorem validateEquationSyntax_parse_stage_witness :
    trim "x^2+y^2=4".data ≠ [] ∧
    structuralError (lowerXYZ "x^2+y^2=4".data) = none ∧
    validateEquationSyntax
      (tableEvaluator [("x^2+y^2", fun s => some (s.x ^ 2 + s.y ^ 2)), ("4", fun _ => some 4)])
      "x^2+y^2=4" = Validation.valid "x^2+y^2=4" ∧
    validateEquationSyntax (tableEvaluator [("4", fun _ => some 4)]) "x^2+y^2=4" =
      Validation.invalid "Syntax error: Undefined symbol x^2+y^2" :=
  ⟨by decide, by decide,
   (validateEquationSyntax_parse_stage
      (tableEvaluator [("x^2+y^2", fun s => some (s.x ^ 2 + s.y ^ 2)), ("4", fun _ => some 4)])
      "x^2+y^2=4" (by decide) (by decide)).2.1
      ((parsesOk_iff _ _).2 (by rw [tryParse_of_mem _ _ (by decide)]; rfl)),
   (validateEquationSyntax_parse_stage (tableEvaluator [("4", fun _ => some 4)])
      "x^2+y^2=4" (by decide) (by decide)).2.2.1 "Undefined symbol x^2+y^2"
      ((parseFails_iff _ _ _).2 (by rw [tryParse_of_mem _ _ (by decide)]; rfl))⟩

/-! ## Sampling -/

theorem absLessThan_iff (value : Num) (threshold : ℚ) :
    absLessThan value threshold = true ↔ ∃ v, value = some v ∧ |v| < threshold := by
  cases value with
  | none => simp [absLessThan]
  | some v => simp [absLessThan]

theorem sub_eq_some_iff (a b : Num) (d : ℚ) :
    Num.sub a b = some d ↔ ∃ u w, a = some u ∧ b = some w ∧ d = u - w := by
  cases a <;> cases b <;> simp [Num.sub, eq_comm]

theorem sqrt_gt_iff (s : ℚ) :
    (1 / 100 : ℝ) < Real.sqrt (s : ℝ) ↔ (1 / 100 : ℚ) ^ 2 < s := by
  rw [Real.lt_sqrt (by norm_num)]
  have : ((1 / 100 : ℚ) ^ 2 < s) ↔ (((1 / 100 : ℚ) ^ 2 : ℚ) : ℝ) < (s : ℝ) := Rat.cast_lt.symm
  rw [this]
  norm_num

theorem gradLengthExceeds_iff (dx dy dz : Num) :
    gradLengthExceeds dx dy dz = true ↔
      ∃ a b c, dx = some a ∧ dy = some b ∧ dz = some c ∧
        (1 / 100 : ℝ) < Real.sqrt ((a * a + b * b + c * c : ℚ) : ℝ) := by
  cases dx with
  | none => simp [gradLengthExceeds]
  | some a =>
    cases dy with
    | none => simp [gradLengthExceeds]
    | some b =>
      cases dz with
      | none => simp [gradLengthExceeds]
      | some c =>
        simp only [gradLengthExceeds, decide_eq_true_eq, Option.some.injEq]
        constructor
        · intro h
          exact ⟨a, b, c, rfl, rfl, rfl, (sqrt_gt_iff _).2 h⟩
        · rintro ⟨a2, b2, c2, rfl, rfl, rfl, h⟩
          exact (sqrt_gt_iff _).1 h

theorem mem_surfaceCell (func : FieldFn) (step threshold x y z : ℚ) (p : Vector3) :
    p ∈ surfaceCell func step threshold x y z ↔
      p = Vector3.mk x z y ∧ SurfaceAccepts func step threshold x y z := by
  have he : step * (1 / 2) = step / 2 := by ring
  unfold surfaceCell SurfaceAccepts
  simp only [he]
  by_cases h1 : absLessThan (func x y z) threshold = true
  · rw [if_pos h1]
    obtain ⟨v, hv, hlt⟩ := (absLessThan_iff _ _).1 h1
    by_cases h2 : gradLengthExceeds
        (Num.sub (func (x + step / 2) y z) (func (x - step / 2) y z))
        (Num.sub (func x (y + step / 2) z) (func x (y - step / 2) z))
        (Num.sub (func x y (z + step / 2)) (func x y (z - step / 2))) = true
    · rw [if_pos h2]
      obtain ⟨a, b, c, ha, hb, hc, hs⟩ := (gradLengthExceeds_iff _ _ _).1 h2
      obtain ⟨xp, xm, e1, e2, e3⟩ := (sub_eq_some_iff _ _ _).1 ha
      obtain ⟨yp, ym, e4, e5, e6⟩ := (sub_eq_some_iff _ _ _).1 hb
      obtain ⟨zp, zm, e7, e8, e9⟩ := (sub_eq_some_iff _ _ _).1 hc
      subst e3 e6 e9
      simp only [List.mem_singleton]
      constructor
      · intro hp
        exact ⟨hp, v, xp, xm, yp, ym, zp, zm, hv, hlt, e1, e2, e4, e5, e7, e8, hs⟩
      · exact fun h => h.1
    · rw [if_neg h2]
      simp only [List.not_mem_nil, false_iff, not_and]
      rintro _ ⟨v2, xp, xm, yp, ym, zp, zm, _, _, e1, e2, e4, e5, e7, e8, hs⟩
      apply h2
      rw [e1, e2, e4, e5, e7, e8]
      exact (gradLengthExceeds_iff _ _ _).2 ⟨_, _, _, rfl, rfl, rfl, hs⟩
  · rw [if_neg h1]
    simp only [List.not_mem_nil, false_iff, not_and]
    rintro _ ⟨v, xp, xm, yp, ym, zp, zm, hv, hlt, _⟩
    exact h1 ((absLessThan_iff _ _).2 ⟨v, hv, hlt⟩)

theorem mem_drawImplicitSurfaceImproved (func : FieldFn) (axisRange : AxisRange) (p : Vector3) :
    p ∈ drawImplicitSurfaceImproved func axisRange ↔
      ∃ i j k : Nat, i < 80 ∧ j < 80 ∧ k < 80 ∧
        p = Vector3.mk (gridCoord axisRange.max 80 i) (gridCoord axisRange.max 80 k)
          (gridCoord axisRange.max 80 j) ∧
        SurfaceAccepts func (2 * axisRange.max / 80) (max (1 / 10) (axisRange.max * (2 / 100)))
          (gridCoord axisRange.max 80 i) (gridCoord axisRange.max 80 j)
          (gridCoord axisRange.max 80 k) := by
  unfold drawImplicitSurfaceImproved
  simp only [List.mem_flatMap, List.mem_range, mem_surfaceCell, gridCoord, Nat.cast_ofNat]
  constructor
  · rintro ⟨i, hi, j, hj, k, hk, hp, ha⟩
    exact ⟨i, j, k, hi, hj, hk, hp, ha⟩
  · rintro ⟨i, j, k, hi, hj, hk, hp, ha⟩
    exact ⟨i, hi, j, hj, k, hk, hp, ha⟩


/-- C11: for every field and every axis range of extent `e`, the positions emitted by
`drawImplicitSurfaceImproved` are exactly the grid points `(-e + i*h, -e + j*h, -e + k*h)`,
`i, j, k < 80`, `h = 2e/80`, at which the field is defined with absolute value below
`max(0.1, 0.02 e)`, its six neighbour values at distance `h/2` are defined, and the
Euclidean magnitude of the three central differences exceeds 0.01; a point where the field
or one of the six neighbour values is undefined is never emitted. -/
theorem drawImplicitSurfaceImproved_emits (func : FieldFn) (axisRange : AxisRange) :
    (∀ p : Vector3, p ∈ drawImplicitSurfaceImproved func axisRange ↔
      (∃ i j k : Nat, i < 80 ∧ j < 80 ∧ k < 80 ∧
        p.userCoords = (gridCoord axisRange.max 80 i, gridCoord axisRange.max 80 j,
          gridCoord axisRange.max 80 k)) ∧
      SurfaceAccepts func (2 * axisRange.max / 80) (max (1 / 10) (axisRange.max * (2 / 100)))
        p.userCoords.1 p.userCoords.2.1 p.userCoords.2.2) ∧
    (∀ x y z : ℚ,
      (func x y z = none ∨
        func (x + 2 * axisRange.max / 80 / 2) y z = none ∨
        func (x - 2 * axisRange.max / 80 / 2) y z = none ∨
        func x (y + 2 * axisRange.max / 80 / 2) z = none ∨
        func x (y - 2 * axisRange.max / 80 / 2) z = none ∨
        func x y (z + 2 * axisRange.max / 80 / 2) = none ∨
        func x y (z - 2 * axisRange.max / 80 / 2) = none) →
      Vector3.mk x z y ∉ drawImplicitSurfaceImproved func axisRange) := by
  have main : ∀ p : Vector3, p ∈ drawImplicitSurfaceImproved func axisRange ↔
      (∃ i j k : Nat, i < 80 ∧ j < 80 ∧ k < 80 ∧
        p.userCoords = (gridCoord axisRange.max 80 i, gridCoord axisRange.max 80 j,
          gridCoord axisRange.max 80 k)) ∧
      SurfaceAccepts func (2 * axisRange.max / 80) (max (1 / 10) (axisRange.max * (2 / 100)))
        p.userCoords.1 p.userCoords.2.1 p.userCoords.2.2 := by
    intro p
    rw [mem_drawImplicitSurfaceImproved]
    obtain ⟨px, py, pz⟩ := p
    simp only [Vector3.userCoords, Vector3.mk.injEq, Prod.mk.injEq]
    constructor
    · rintro ⟨i, j, k, hi, hj, hk, ⟨rfl, rfl, rfl⟩, ha⟩
      exact ⟨⟨i, j, k, hi, hj, hk, rfl, rfl, rfl⟩, ha⟩
    · rintro ⟨⟨i, j, k, hi, hj, hk, rfl, rfl, rfl⟩, ha⟩
      exact ⟨i, j, k, hi, hj, hk, ⟨rfl, rfl, rfl⟩, ha⟩
  refine ⟨main, ?_⟩
  intro x y z hnone hmem
  obtain ⟨_, v, xp, xm, yp, ym, zp, zm, h0, _, h1, h2, h3, h4, h5, h6, _⟩ := (main _).1 hmem
  simp only [Vector3.userCoords] at h0 h1 h2 h3 h4 h5 h6
  rcases hnone with h | h | h | h | h | h | h
  · rw [h] at h0; exact absurd h0 (by simp)
  · rw [h] at h1; exact absurd h1 (by simp)
  · rw [h] at h2; exact absurd h2 (by simp)
  · rw [h] at h3; exact absurd h3 (by simp)
  · rw [h] at h4; exact absurd h4 (by simp)
  · rw [h] at h5; exact absurd h5 (by simp)
  · rw [h] at h6; exact absurd h6 (by simp)

theorem allSatisfied_iff (funcs : List FieldFn) (threshold x y z : ℚ) :
    allSatisfied funcs threshold x y z = true ↔
      ∀ func ∈ funcs, ∃ v, func x y z = some v ∧ |v| < threshold := by
  unfold allSatisfied
  simp only [List.all_eq_true, Bool.and_eq_true, absLessThan_iff, isDefined]
  constructor
  · intro h f hf
    exact (h f hf).2
  · intro h f hf
    obtain ⟨v, hv, hlt⟩ := h f hf
    exact ⟨by simp [hv], v, hv, hlt⟩

theorem mem_intersectionScan (funcs : List FieldFn) (axisRange : AxisRange) (p : Vector3) :
    p ∈ intersectionScan funcs axisRange ↔
      ∃ i j k : Nat, i < 70 ∧ j < 70 ∧ k < 70 ∧
        p = Vector3.mk (gridCoord axisRange.max 70 i) (gridCoord axisRange.max 70 k)
          (gridCoord axisRange.max 70 j) ∧
        ∀ func ∈ funcs, ∃ v,
          func (gridCoord axisRange.max 70 i) (gridCoord axisRange.max 70 j)
            (gridCoord axisRange.max 70 k) = some v ∧
          |v| < max (12 / 100) (axisRange.max * (25 / 1000)) := by
  unfold intersectionScan
  simp only [List.mem_flatMap, List.mem_range, gridCoord, Nat.cast_ofNat]
  constructor
  · rintro ⟨i, hi, j, hj, k, hk, hp⟩
    split at hp
    · next h =>
      exact ⟨i, j, k, hi, hj, hk, by simpa using hp, (allSatisfied_iff _ _ _ _ _).1 h⟩
    · exact absurd hp (by simp)
  · rintro ⟨i, j, k, hi, hj, hk, hp, ha⟩
    refine ⟨i, hi, j, hj, k, hk, ?_⟩
    rw [if_pos ((allSatisfied_iff _ _ _ _ _).2 ha)]
    simp [hp]

/-- C12: for every list of fields and every axis range of extent `e`, the intersection
scan emits a position exactly when it is a grid point (70 steps per axis, step `2e/70`,
from `-e`) at which every field of the list is defined with absolute value below
`max(0.12, 0.025 e)`; no gradient enters the test. -/
theorem intersectionScan_emits (funcs : List FieldFn) (axisRange : AxisRange) (p : Vector3) :
    p ∈ intersectionScan funcs axisRange ↔
      (∃ i j k : Nat, i < 70 ∧ j < 70 ∧ k < 70 ∧
        p.userCoords = (gridCoord axisRange.max 70 i, gridCoord axisRange.max 70 j,
          gridCoord axisRange.max 70 k)) ∧
      ∀ func ∈ funcs, ∃ v,
        func p.userCoords.1 p.userCoords.2.1 p.userCoords.2.2 = some v ∧
        |v| < max (12 / 100) (axisRange.max * (25 / 1000)) := by
  rw [mem_intersectionScan]
  obtain ⟨px, py, pz⟩ := p
  simp only [Vector3.userCoords, Vector3.mk.injEq, Prod.mk.injEq]
  constructor
  · rintro ⟨i, j, k, hi, hj, hk, ⟨rfl, rfl, rfl⟩, ha⟩
    exact ⟨⟨i, j, k, hi, hj, hk, rfl, rfl, rfl⟩, ha⟩
  · rintro ⟨⟨i, j, k, hi, hj, hk, rfl, rfl, rfl⟩, ha⟩
    exact ⟨i, j, k, hi, hj, hk, ⟨rfl, rfl, rfl⟩, ha⟩

theorem allSatisfied_perm {funcs1 funcs2 : List FieldFn} (h : funcs1.Perm funcs2)
    (threshold x y z : ℚ) :
    allSatisfied funcs1 threshold x y z = allSatisfied funcs2 threshold x y z := by
  rw [Bool.eq_iff_iff, allSatisfied_iff, allSatisfied_iff]
  constructor
  · intro hall f hf
    exact hall f (h.mem_iff.2 hf)
  · intro hall f hf
    exact hall f (h.mem_iff.1 hf)

/-- C15: for every axis range and every two lists of fields that are permutations of one
another, the intersection scan builds the same list of positions, hence emits the same
set of points. -/
theorem intersectionScan_perm (funcs1 funcs2 : List FieldFn) (axisRange : AxisRange)
    (h : funcs1.Perm funcs2) :
    intersectionScan funcs1 axisRange = intersectionScan funcs2 axisRange ∧
    ∀ p : Vector3, p ∈ intersectionScan funcs1 axisRange ↔ p ∈ intersectionScan funcs2 axisRange := by
  have e : intersectionScan funcs1 axisRange = intersectionScan funcs2 axisRange := by
    unfold intersectionScan
    simp only [allSatisfied_perm h]
  exact ⟨e, fun p => by rw [e]⟩

/-- C15 (witness): the lists `[A, B]` and `[B, A]` of a plane and a sphere give the same
scan over the extent 5. -/
theorem intersectionScan_perm_witness :
    [planeZ1, sphereField].Perm [sphereField, planeZ1] ∧
    intersectionScan [planeZ1, sphereField] (AxisRange.mk (-5) 5) =
      intersectionScan [sphereField, planeZ1] (AxisRange.mk (-5) 5) :=
  ⟨List.Perm.swap _ _ _,
   (intersectionScan_perm [planeZ1, sphereField] [sphereField, planeZ1] (AxisRange.mk (-5) 5)
      (List.Perm.swap _ _ _)).1⟩


/-- C13 (counterexample): over the extent 50 the threshold is 1.25 and the grid has the
level `z = 10/7`, where `z - 1 = 3/7` and `z - 2 = -4/7` are both below the threshold in
absolute value: the scan of the two parallel planes emits the point `(-50, -50, 10/7)`
and is not empty. -/
theorem intersectionScan_parallel_planes_extent_50 :
    Vector3.mk (-50) (10 / 7) (-50) ∈
      intersectionScan [planeZ1, planeZ2] (AxisRange.mk (-50) 50) ∧
    (Vector3.mk (-50) (10 / 7) (-50)).userCoords = (-50, -50, 10 / 7) ∧
    planeZ1 (-50) (-50) (10 / 7) = some (3 / 7) ∧
    planeZ2 (-50) (-50) (10 / 7) = some (-4 / 7) ∧
    max (12 / 100 : ℚ) (50 * (25 / 1000)) = 5 / 4 ∧
    intersectionScan [planeZ1, planeZ2] (AxisRange.mk (-50) 50) ≠ [] := by
  have hmem : Vector3.mk (-50) (10 / 7) (-50) ∈
      intersectionScan [planeZ1, planeZ2] (AxisRange.mk (-50) 50) := by
    rw [mem_intersectionScan]
    refine ⟨0, 0, 36, by norm_num, by norm_num, by norm_num, ?_, ?_⟩
    · norm_num [gridCoord]
    · intro func hf
      simp only [List.mem_cons, List.mem_singleton, List.not_mem_nil, or_false] at hf
      rcases hf with rfl | rfl
      · refine ⟨3 / 7, ?_, ?_⟩
        · norm_num [planeZ1, gridCoord]
        · rw [abs_of_pos (by norm_num)]
          norm_num
      · refine ⟨-4 / 7, ?_, ?_⟩
        · norm_num [planeZ2, gridCoord]
        · rw [abs_of_neg (by norm_num)]
          norm_num
  refine ⟨hmem, rfl, ?_, ?_, ?_, List.ne_nil_of_mem hmem⟩
  · norm_num [planeZ1]
  · norm_num [planeZ2]
  · norm_num

/-- C13 (amended): for the two fields `z - 1` and `z - 2` and every extent up to 20, the
intersection scan emits no point. -/
theorem intersectionScan_parallel_planes_empty (axisRange : AxisRange)
    (h : axisRange.max ≤ 20) :
    intersectionScan [planeZ1, planeZ2] axisRange = [] := by
  rw [List.eq_nil_iff_forall_not_mem]
  intro p hp
  rw [mem_intersectionScan] at hp
  obtain ⟨i, j, k, _, _, _, _, ha⟩ := hp
  obtain ⟨v1, hv1, h1⟩ := ha planeZ1 (by simp)
  obtain ⟨v2, hv2, h2⟩ := ha planeZ2 (by simp)
  simp only [planeZ1, planeZ2, Option.some.injEq] at hv1 hv2
  have ht : max (12 / 100 : ℚ) (axisRange.max * (25 / 1000)) ≤ 1 / 2 := by
    apply max_le
    · norm_num
    · linarith
  have a1 := abs_lt.1 h1
  have a2 := abs_lt.1 h2
  linarith [a1.1, a1.2, a2.1, a2.2]

/-- C13 (witness): the texts `z=1` and `z=2` select the extent 5, over which the scan of
the two planes is empty. -/
theorem intersectionScan_parallel_planes_empty_witness :
    (AxisRange.mk (-5) 5).max ≤ 20 ∧
    calculateAxisRange [some "z=1", some "z=2"] = AxisRange.mk (-5) 5 ∧
    intersectionScan [planeZ1, planeZ2] (AxisRange.mk (-5) 5) = [] := by
  refine ⟨by norm_num, ?_,
    intersectionScan_parallel_planes_empty (AxisRange.mk (-5) 5) (by norm_num)⟩
  have hm1 : matchNumbers (trim "z=1".data) = ["1".data] := by
    have : trim "z=1".data = "z=1".data := by decide
    rw [this]
    simp [matchNumbers, isDigit]
  have hm2 : matchNumbers (trim "z=2".data) = ["2".data] := by
    have : trim "z=2".data = "z=2".data := by decide
    rw [this]
    simp [matchNumbers, isDigit]
  have hp1 : parseFloat "1".data = 1 := by
    simp [parseFloat, isDigit, digitsValue, digitValue]
  have hp2 : parseFloat "2".data = 2 := by
    simp [parseFloat, isDigit, digitsValue, digitValue]
  have he1 : (trim "z=1".data).isEmpty = false := by decide
  have he2 : (trim "z=2".data).isEmpty = false := by decide
  have hM : maxLiteral [some "z=1", some "z=2"] = 5 := by
    simp only [maxLiteral, List.foldl, scanEquation, he1, he2, hm1, hm2, updateMax, hp1, hp2]
    norm_num
  simp only [calculateAxisRange, hM]
  norm_num

/-- C14: over the extent 5 the threshold is 0.1; the surface extractor run on
`x^2 + y^2 + z^2 - 9` emits the point `(3, 0, 0)`, so its output is not empty, and every
emitted point `p` has `| |p|^2 - 9 | < 0.1` and a distance from the origin within 0.02
of 3. -/
theorem drawImplicitSurfaceImproved_sphere :
    max (1 / 10 : ℚ) ((AxisRange.mk (-5) 5).max * (2 / 100)) = 1 / 10 ∧
    Vector3.mk 3 0 0 ∈ drawImplicitSurfaceImproved sphereField (AxisRange.mk (-5) 5) ∧
    drawImplicitSurfaceImproved sphereField (AxisRange.mk (-5) 5) ≠ [] ∧
    ∀ p ∈ drawImplicitSurfaceImproved sphereField (AxisRange.mk (-5) 5),
      sphereField p.userCoords.1 p.userCoords.2.1 p.userCoords.2.2 =
        some (p.userCoords.1 ^ 2 + p.userCoords.2.1 ^ 2 + p.userCoords.2.2 ^ 2 - 9) ∧
      |p.userCoords.1 ^ 2 + p.userCoords.2.1 ^ 2 + p.userCoords.2.2 ^ 2 - 9| < 1 / 10 ∧
      |Real.sqrt ((p.userCoords.1 ^ 2 + p.userCoords.2.1 ^ 2 + p.userCoords.2.2 ^ 2 : ℚ) : ℝ)
        - 3| < 2 / 100 := by
  have hmem : Vector3.mk 3 0 0 ∈ drawImplicitSurfaceImproved sphereField (AxisRange.mk (-5) 5) := by
    rw [mem_drawImplicitSurfaceImproved]
    refine ⟨64, 40, 40, by norm_num, by norm_num, by norm_num, by norm_num [gridCoord], ?_⟩
    have g64 : gridCoord (AxisRange.mk (-5) 5).max 80 64 = 3 := by norm_num [gridCoord]
    have g40 : gridCoord (AxisRange.mk (-5) 5).max 80 40 = 0 := by norm_num [gridCoord]
    rw [g64, g40]
    refine ⟨0, (3 + 1 / 16) ^ 2 - 9, (3 - 1 / 16) ^ 2 - 9, (1 / 16) ^ 2 + 0,
      (1 / 16) ^ 2 + 0, (1 / 16) ^ 2 + 0, (1 / 16) ^ 2 + 0, ?_, ?_, ?_, ?_, ?_, ?_, ?_, ?_, ?_⟩
    · norm_num [sphereField]
    · norm_num
    · norm_num [sphereField]
    · norm_num [sphereField]
    · norm_num [sphereField]
    · norm_num [sphereField]
    · norm_num [sphereField]
    · norm_num [sphereField]
    · rw [sqrt_gt_iff]
      norm_num
  refine ⟨by norm_num, hmem, List.ne_nil_of_mem hmem, ?_⟩
  intro p hp
  rw [mem_drawImplicitSurfaceImproved] at hp
  obtain ⟨i, j, k, _, _, _, rfl, v, _, _, _, _, _, _, hv, hlt, _⟩ := hp
  simp only [Vector3.userCoords]
  simp only [sphereField, Option.some.injEq] at hv
  have ht : max (1 / 10 : ℚ) ((AxisRange.mk (-5) 5).max * (2 / 100)) = 1 / 10 := by norm_num
  rw [ht, ← hv] at hlt
  refine ⟨rfl, hlt, ?_⟩
  have a := abs_lt.1 hlt
  set s : ℚ := gridCoord (AxisRange.mk (-5) 5).max 80 i ^ 2 +
    gridCoord (AxisRange.mk (-5) 5).max 80 j ^ 2 + gridCoord (AxisRange.mk (-5) 5).max 80 k ^ 2
    with hs
  have h1 : ((89 / 10 : ℚ) : ℝ) < (s : ℝ) := Rat.cast_lt.2 (by linarith [a.1])
  have h2 : (s : ℝ) < ((91 / 10 : ℚ) : ℝ) := Rat.cast_lt.2 (by linarith [a.2])
  have l1 : (3 - 2 / 100 : ℝ) < Real.sqrt (s : ℝ) := by
    rw [Real.lt_sqrt (by norm_num)]
    have : ((89 / 10 : ℚ) : ℝ) = 89 / 10 := by norm_num
    rw [this] at h1
    linarith
  have l2 : Real.sqrt (s : ℝ) < (3 + 2 / 100 : ℝ) := by
    rw [Real.sqrt_lt' (by norm_num)]
    have : ((91 / 10 : ℚ) : ℝ) = 91 / 10 := by norm_num
    rw [this] at h2
    linarith
  rw [abs_lt]
  constructor <;> linarith

/-! ## User actions on the state -/

/-- C18: when all three conditions are none, `visualizeRegion` alerts that no condition is
set and leaves the whole state as it is: the visualization is not cleared, no interval is
resolved and nothing is drawn; with a condition that is not none it replaces the
visualization by the region that `drawRegion` draws for the resolved bounds. -/
theorem visualizeRegionOn_requires_condition (s : Session) (xCond yCond zCond : AxisCondition) :
    ((xCond = AxisCondition.none ∧ yCond = AxisCondition.none ∧ zCond = AxisCondition.none) →
      visualizeRegionOn s xCond yCond zCond =
        (Outcome.alert "Please set at least one condition!", s)) ∧
    (¬ (xCond = AxisCondition.none ∧ yCond = AxisCondition.none ∧ zCond = AxisCondition.none) →
      visualizeRegionOn s xCond yCond zCond =
        (Outcome.done,
          { s with visualizedObjects := [SceneObject.region (drawRegion
              (resolveAxis s.axisRange xCond).1 (resolveAxis s.axisRange xCond).2
              (resolveAxis s.axisRange yCond).1 (resolveAxis s.axisRange yCond).2
              (resolveAxis s.axisRange zCond).1 (resolveAxis s.axisRange zCond).2)] })) := by
  constructor
  · rintro ⟨rfl, rfl, rfl⟩
    rfl
  · intro h
    cases xCond <;> cases yCond <;> cases zCond <;>
      first
      | rfl
      | exact absurd ⟨rfl, rfl, rfl⟩ h

/-- C18 (witness): with no condition the state, which holds an object, comes back
unchanged with the alert; with `x = 2` the region is drawn. -/
theorem visualizeRegionOn_requires_condition_witness :
    visualizeRegionOn
        { initialSession with visualizedObjects := [SceneObject.intersection []] }
        AxisCondition.none AxisCondition.none AxisCondition.none =
      (Outcome.alert "Please set at least one condition!",
        { initialSession with visualizedObjects := [SceneObject.intersection []] }) ∧
    visualizeRegionOn initialSession (AxisCondition.single "=" 2) AxisCondition.none
        AxisCondition.none =
      (Outcome.done,
        { initialSession with visualizedObjects := [SceneObject.region (drawRegion
            (resolveAxis initialSession.axisRange (AxisCondition.single "=" 2)).1
            (resolveAxis initialSession.axisRange (AxisCondition.single "=" 2)).2
            (resolveAxis initialSession.axisRange AxisCondition.none).1
            (resolveAxis initialSession.axisRange AxisCondition.none).2
            (resolveAxis initialSession.axisRange AxisCondition.none).1
            (resolveAxis initialSession.axisRange AxisCondition.none).2)] }) :=
  ⟨(visualizeRegionOn_requires_condition _ _ _ _).1 ⟨rfl, rfl, rfl⟩,
   (visualizeRegionOn_requires_condition initialSession (AxisCondition.single "=" 2)
      AxisCondition.none AxisCondition.none).2 (by simp)⟩

theorem axisFixed_of_inverted {lo hi : ℚ} (h : hi < lo) : axisFixed lo hi = true := by
  simp only [axisFixed, decide_eq_true_eq]
  linarith

theorem resolveAxis_inverted (axisRange : AxisRange) (cond : AxisCondition)
    (h : InvertedCondition axisRange cond) :
    (resolveAxis axisRange cond).2 < (resolveAxis axisRange cond).1 := by
  rcases h with ⟨mn, mx, rfl, h⟩ | ⟨v, rfl, h⟩ | ⟨v, rfl, h⟩
  · exact h
  · simpa [resolveAxis] using h
  · simpa [resolveAxis] using h

theorem invertedCondition_ne_none (axisRange : AxisRange) (cond : AxisCondition)
    (h : InvertedCondition axisRange cond) : cond.isNone = false := by
  rcases h with ⟨mn, mx, rfl, h⟩ | ⟨v, rfl, h⟩ | ⟨v, rfl, h⟩ <;> rfl

theorem drawRegion_kind_of_fixed (xMin xMax yMin yMax zMin zMax : ℚ)
    (h : axisFixed xMin xMax = true ∨ axisFixed yMin yMax = true ∨ axisFixed zMin zMax = true) :
    (drawRegion xMin xMax yMin yMax zMin zMax).kind = RegionKind.Plane ∨
    (drawRegion xMin xMax yMin yMax zMin zMax).kind = RegionKind.Line ∨
    (drawRegion xMin xMax yMin yMax zMin zMax).kind = RegionKind.Point := by
  unfold drawRegion
  unfold axisFixed at h
  dsimp only
  revert h
  generalize decide (xMax - xMin < 1 / 100) = bx
  generalize decide (yMax - yMin < 1 / 100) = b
  generalize decide (zMax - zMin < 1 / 100) = bz
  cases bx <;> cases b <;> cases bz <;> simp [RegionPrimitive.kind]

theorem drawRegion_of_x_fixed (xMin xMax yMin yMax zMin zMax : ℚ)
    (h : axisFixed xMin xMax = true) :
    drawRegion xMin xMax yMin yMax zMin zMax =
      if (axisFixed yMin yMax && axisFixed zMin zMax) = true then
        RegionPrimitive.point
          (Vector3.mk ((xMax + xMin) / 2) ((zMax + zMin) / 2) ((yMax + yMin) / 2))
      else if (axisFixed yMin yMax || axisFixed zMin zMax) = true then
        RegionPrimitive.line (drawLine xMin xMax yMin yMax zMin zMax true
          (axisFixed yMin yMax) (axisFixed zMin zMax))
      else RegionPrimitive.plane xMin xMax yMin yMax zMin zMax true false false := by
  unfold drawRegion
  unfold axisFixed at h ⊢
  dsimp only
  revert h
  generalize decide (xMax - xMin < 1 / 100) = bx
  generalize decide (yMax - yMin < 1 / 100) = b
  generalize decide (zMax - zMin < 1 / 100) = bz
  intro h
  subst h
  cases b <;> cases bz <;> rfl

theorem drawRegion_of_y_fixed (xMin xMax yMin yMax zMin zMax : ℚ)
    (h : axisFixed yMin yMax = true) :
    drawRegion xMin xMax yMin yMax zMin zMax =
      if (axisFixed xMin xMax && axisFixed zMin zMax) = true then
        RegionPrimitive.point
          (Vector3.mk ((xMax + xMin) / 2) ((zMax + zMin) / 2) ((yMax + yMin) / 2))
      else if (axisFixed xMin xMax || axisFixed zMin zMax) = true then
        RegionPrimitive.line (drawLine xMin xMax yMin yMax zMin zMax
          (axisFixed xMin xMax) true (axisFixed zMin zMax))
      else RegionPrimitive.plane xMin xMax yMin yMax zMin zMax false true false := by
  unfold drawRegion
  unfold axisFixed at h ⊢
  dsimp only
  revert h
  generalize decide (xMax - xMin < 1 / 100) = bx
  generalize decide (yMax - yMin < 1 / 100) = b
  generalize decide (zMax - zMin < 1 / 100) = bz
  intro h
  subst h
  cases bx <;> cases bz <;> rfl

theorem drawRegion_of_z_fixed (xMin xMax yMin yMax zMin zMax : ℚ)
    (h : axisFixed zMin zMax = true) :
    drawRegion xMin xMax yMin yMax zMin zMax =
      if (axisFixed xMin xMax && axisFixed yMin yMax) = true then
        RegionPrimitive.point
          (Vector3.mk ((xMax + xMin) / 2) ((zMax + zMin) / 2) ((yMax + yMin) / 2))
      else if (axisFixed xMin xMax || axisFixed yMin yMax) = true then
        RegionPrimitive.line (drawLine xMin xMax yMin yMax zMin zMax
          (axisFixed xMin xMax) (axisFixed yMin yMax) true)
      else RegionPrimitive.plane xMin xMax yMin yMax zMin zMax false false true := by
  unfold drawRegion
  unfold axisFixed at h ⊢
  dsimp only
  revert h
  generalize decide (xMax - xMin < 1 / 100) = bx
  generalize decide (yMax - yMin < 1 / 100) = b
  generalize decide (zMax - zMin < 1 / 100) = bz
  intro h
  subst h
  cases bx <;> cases b <;> rfl

theorem visualizeRegion_of_not_none (axisRange : AxisRange) (xCond yCond zCond : AxisCondition)
    (h : xCond.isNone = false ∨ yCond.isNone = false ∨ zCond.isNone = false) :
    visualizeRegion axisRange xCond yCond zCond =
      Except.ok (drawRegion
        (resolveAxis axisRange xCond).1 (resolveAxis axisRange xCond).2
        (resolveAxis axisRange yCond).1 (resolveAxis axisRange yCond).2
        (resolveAxis axisRange zCond).1 (resolveAxis axisRange zCond).2) := by
  unfold visualizeRegion
  have hn : (xCond.isNone && yCond.isNone && zCond.isNone) = false := by
    rcases h with h | h | h <;> simp [h]
  simp only [hn]
  rfl

/-- C20: a condition that resolves to an inverted interval (a slab with `min > max`,
`<= v` with `v` below the range, `>= v` with `v` above it) gives `max < min`, and such an
axis is classified as fixed.  For all bounds, `drawRegion` with `max < min` on an axis
draws the region with that axis fixed: the Point when the two other axes are fixed, the
Line whose call carries the fixed flag of that axis when one of them is, and otherwise the
Plane whose call carries the fixed flag of that axis alone.  So with an inverted condition
on an axis `visualizeRegion` does not reject and draws exactly that region for the resolved
bounds, a Plane, a Line or a Point, never a Volume. -/
theorem inverted_axis_drawn_fixed (axisRange : AxisRange) (xCond yCond zCond : AxisCondition) :
    (∀ cond, InvertedCondition axisRange cond →
      (resolveAxis axisRange cond).2 < (resolveAxis axisRange cond).1 ∧
      axisFixed (resolveAxis axisRange cond).1 (resolveAxis axisRange cond).2 = true) ∧
    (∀ xMin xMax yMin yMax zMin zMax : ℚ, xMax < xMin →
      drawRegion xMin xMax yMin yMax zMin zMax =
        regionWithXFixed xMin xMax yMin yMax zMin zMax) ∧
    (∀ xMin xMax yMin yMax zMin zMax : ℚ, yMax < yMin →
      drawRegion xMin xMax yMin yMax zMin zMax =
        regionWithYFixed xMin xMax yMin yMax zMin zMax) ∧
    (∀ xMin xMax yMin yMax zMin zMax : ℚ, zMax < zMin →
      drawRegion xMin xMax yMin yMax zMin zMax =
        regionWithZFixed xMin xMax yMin yMax zMin zMax) ∧
    (InvertedCondition axisRange xCond →
      visualizeRegion axisRange xCond yCond zCond =
        Except.ok (regionWithXFixed
          (resolveAxis axisRange xCond).1 (resolveAxis axisRange xCond).2
          (resolveAxis axisRange yCond).1 (resolveAxis axisRange yCond).2
          (resolveAxis axisRange zCond).1 (resolveAxis axisRange zCond).2)) ∧
    (InvertedCondition axisRange yCond →
      visualizeRegion axisRange xCond yCond zCond =
        Except.ok (regionWithYFixed
          (resolveAxis axisRange xCond).1 (resolveAxis axisRange xCond).2
          (resolveAxis axisRange yCond).1 (resolveAxis axisRange yCond).2
          (resolveAxis axisRange zCond).1 (resolveAxis axisRange zCond).2)) ∧
    (InvertedCondition axisRange zCond →
      visualizeRegion axisRange xCond yCond zCond =
        Except.ok (regionWithZFixed
          (resolveAxis axisRange xCond).1 (resolveAxis axisRange xCond).2
          (resolveAxis axisRange yCond).1 (resolveAxis axisRange yCond).2
          (resolveAxis axisRange zCond).1 (resolveAxis axisRange zCond).2)) ∧
    ((InvertedCondition axisRange xCond ∨ InvertedCondition axisRange yCond ∨
        InvertedCondition axisRange zCond) →
      ∃ primitive, visualizeRegion axisRange xCond yCond zCond = Except.ok primitive ∧
        (primitive.kind = RegionKind.Plane ∨ primitive.kind = RegionKind.Line ∨
          primitive.kind = RegionKind.Point)) := by
  have p1 : ∀ cond, InvertedCondition axisRange cond →
      (resolveAxis axisRange cond).2 < (resolveAxis axisRange cond).1 ∧
      axisFixed (resolveAxis axisRange cond).1 (resolveAxis axisRange cond).2 = true :=
    fun cond h => ⟨resolveAxis_inverted _ _ h, axisFixed_of_inverted (resolveAxis_inverted _ _ h)⟩
  have dx : ∀ xMin xMax yMin yMax zMin zMax : ℚ, xMax < xMin →
      drawRegion xMin xMax yMin yMax zMin zMax =
        regionWithXFixed xMin xMax yMin yMax zMin zMax :=
    fun _ _ _ _ _ _ h => drawRegion_of_x_fixed _ _ _ _ _ _ (axisFixed_of_inverted h)
  have dy : ∀ xMin xMax yMin yMax zMin zMax : ℚ, yMax < yMin →
      drawRegion xMin xMax yMin yMax zMin zMax =
        regionWithYFixed xMin xMax yMin yMax zMin zMax :=
    fun _ _ _ _ _ _ h => drawRegion_of_y_fixed _ _ _ _ _ _ (axisFixed_of_inverted h)
  have dz : ∀ xMin xMax yMin yMax zMin zMax : ℚ, zMax < zMin →
      drawRegion xMin xMax yMin yMax zMin zMax =
        regionWithZFixed xMin xMax yMin yMax zMin zMax :=
    fun _ _ _ _ _ _ h => drawRegion_of_z_fixed _ _ _ _ _ _ (axisFixed_of_inverted h)
  refine ⟨p1, dx, dy, dz, ?_, ?_, ?_, ?_⟩
  · intro h
    rw [visualizeRegion_of_not_none _ _ _ _ (Or.inl (invertedCondition_ne_none _ _ h)),
      dx _ _ _ _ _ _ (p1 _ h).1]
  · intro h
    rw [visualizeRegion_of_not_none _ _ _ _ (Or.inr (Or.inl (invertedCondition_ne_none _ _ h))),
      dy _ _ _ _ _ _ (p1 _ h).1]
  · intro h
    rw [visualizeRegion_of_not_none _ _ _ _ (Or.inr (Or.inr (invertedCondition_ne_none _ _ h))),
      dz _ _ _ _ _ _ (p1 _ h).1]
  · intro h
    refine ⟨_, visualizeRegion_of_not_none _ _ _ _ ?_, ?_⟩
    · rcases h with h | h | h
      · exact Or.inl (invertedCondition_ne_none _ _ h)
      · exact Or.inr (Or.inl (invertedCondition_ne_none _ _ h))
      · exact Or.inr (Or.inr (invertedCondition_ne_none _ _ h))
    · apply drawRegion_kind_of_fixed
      rcases h with h | h | h
      · exact Or.inl (p1 _ h).2
      · exact Or.inr (Or.inl (p1 _ h).2)
      · exact Or.inr (Or.inr (p1 _ h).2)

/-- C20 (witness): over `[-5, 5]` the slab from 3 to 1, `<= -7` and `>= 7` are inverted
conditions; the slab from 3 to 1 on `x` alone is drawn as the Plane with the flag of `x`
set, and `x = 2` with `y <= -7` as a Line from `y = -5` to `y = -7`. -/
theorem inverted_axis_drawn_fixed_witness :
    InvertedCondition (AxisRange.mk (-5) 5) (AxisCondition.slab 3 1) ∧
    InvertedCondition (AxisRange.mk (-5) 5) (AxisCondition.single "<=" (-7)) ∧
    InvertedCondition (AxisRange.mk (-5) 5) (AxisCondition.single ">=" 7) ∧
    visualizeRegion (AxisRange.mk (-5) 5) (AxisCondition.slab 3 1) AxisCondition.none
        AxisCondition.none =
      Except.ok (RegionPrimitive.plane 3 1 (-5) 5 (-5) 5 true false false) ∧
    visualizeRegion (AxisRange.mk (-5) 5) (AxisCondition.single "=" 2)
        (AxisCondition.single "<=" (-7)) AxisCondition.none =
      Except.ok (RegionPrimitive.line [Vector3.mk 2 (-5) (-5), Vector3.mk 2 5 (-7)]) ∧
    drawRegion 3 1 (-5) 5 (-5) 5 = RegionPrimitive.plane 3 1 (-5) 5 (-5) 5 true false false := by
  have hx : InvertedCondition (AxisRange.mk (-5) 5) (AxisCondition.slab 3 1) :=
    Or.inl ⟨3, 1, rfl, by norm_num⟩
  have hy : InvertedCondition (AxisRange.mk (-5) 5) (AxisCondition.single "<=" (-7)) :=
    Or.inr (Or.inl ⟨-7, rfl, by norm_num⟩)
  refine ⟨hx, hy, Or.inr (Or.inr ⟨7, rfl, by norm_num⟩), ?_, ?_, ?_⟩
  · rw [(inverted_axis_drawn_fixed (AxisRange.mk (-5) 5) (AxisCondition.slab 3 1)
      AxisCondition.none AxisCondition.none).2.2.2.2.1 hx]
    norm_num [regionWithXFixed, resolveAxis, axisFixed]
  · rw [(inverted_axis_drawn_fixed (AxisRange.mk (-5) 5) (AxisCondition.single "=" 2)
      (AxisCondition.single "<=" (-7)) AxisCondition.none).2.2.2.2.2.1 hy]
    norm_num [regionWithYFixed, resolveAxis, axisFixed, drawLine,
      show ¬ ("<=" : String) = "=" by decide]
  · rw [(inverted_axis_drawn_fixed (AxisRange.mk (-5) 5) AxisCondition.none AxisCondition.none
      AxisCondition.none).2.1 3 1 (-5) 5 (-5) 5 (by norm_num)]
    norm_num [regionWithXFixed, axisFixed]

theorem collectEquationData_length (evaluate : Evaluator) (s : Session) (l : List Equation)
    (data : List String) (h : collectEquationData evaluate s l = .ok data) :
    data.length = (l.filter (fun eq => !(equationText s eq).data.isEmpty)).length := by
  induction l generalizing data with
  | nil =>
    simp only [collectEquationData, Except.ok.injEq] at h
    subst h
    rfl
  | cons eq rest ih =>
    rw [collectEquationData] at h
    by_cases hne : (!(equationText s eq).data.isEmpty) = true
    · rw [if_pos hne] at h
      rw [List.filter_cons_of_pos (p := fun eq => !(equationText s eq).data.isEmpty) hne]
      cases hv : validateEquationSyntax evaluate (equationText s eq) with
      | invalid error =>
        rw [hv] at h
        exact absurd h (by simp)
      | valid n =>
        rw [hv] at h
        cases hr : collectEquationData evaluate s rest with
        | error m =>
          rw [hr] at h
          exact absurd h (by simp)
        | ok d =>
          rw [hr] at h
          simp only [Except.ok.injEq] at h
          subst h
          simp [ih d hr]
    · rw [if_neg hne] at h
      rw [List.filter_cons_of_neg (p := fun eq => !(equationText s eq).data.isEmpty) hne]
      exact ih data h

/-- C17: when fewer than two equations are live, or fewer than two live equations have a
non-empty text, `visualizeIntersection` ends in one of its three rejections (the alert for
too few equations, the alert for too few valid equations, or the alert and the thrown error
of a failed validation), all before the sampling, and the state is unchanged: in particular
the visualized objects and the axis range. -/
theorem visualizeIntersection_rejects (evaluate : Evaluator) (s : Session)
    (h : s.equations.length < 2 ∨ (nonEmptyEquations s).length < 2) :
    (visualizeIntersection evaluate s =
        (Outcome.alert "Need at least 2 equations for intersection!", s) ∨
      visualizeIntersection evaluate s =
        (Outcome.alert "Need at least 2 valid equations!", s) ∨
      ∃ message, visualizeIntersection evaluate s =
        (Outcome.alertThrow message "Validation failed", s)) ∧
    (visualizeIntersection evaluate s).2.visualizedObjects = s.visualizedObjects ∧
    (visualizeIntersection evaluate s).2.axisRange = s.axisRange := by
  have key : visualizeIntersection evaluate s =
        (Outcome.alert "Need at least 2 equations for intersection!", s) ∨
      visualizeIntersection evaluate s =
        (Outcome.alert "Need at least 2 valid equations!", s) ∨
      ∃ message, visualizeIntersection evaluate s =
        (Outcome.alertThrow message "Validation failed", s) := by
    unfold visualizeIntersection
    by_cases h1 : s.equations.length < 2
    · rw [if_pos h1]
      exact Or.inl rfl
    · rw [if_neg h1]
      have h2 : (nonEmptyEquations s).length < 2 := by
        rcases h with h | h
        · exact absurd h h1
        · exact h
      cases hc : collectEquationData evaluate s s.equations with
      | error message => exact Or.inr (Or.inr ⟨message, rfl⟩)
      | ok data =>
        have hl := collectEquationData_length evaluate s s.equations data hc
        have hd : data.length < 2 := by
          rw [hl]
          exact h2
        dsimp only
        rw [if_pos hd]
        exact Or.inr (Or.inl rfl)
  refine ⟨key, ?_, ?_⟩
  · rcases key with e | e | ⟨m, e⟩ <;> rw [e]
  · rcases key with e | e | ⟨m, e⟩ <;> rw [e]

theorem firstInvalid_some_of_invalid (evaluate : Evaluator) (s : Session) (l : List Equation)
    (h : ∃ eq ∈ l, (equationText s eq).data ≠ [] ∧
      (validateEquationSyntax evaluate (equationText s eq)).isValid = false) :
    ∃ eq ∈ l, ∃ error,
      validateEquationSyntax evaluate (equationText s eq) = Validation.invalid error ∧
      firstInvalid evaluate s l =
        some ("Error in Equation " ++ toString eq.displayNumber ++ ": " ++ error) := by
  induction l with
  | nil =>
    obtain ⟨eq, hmem, _⟩ := h
    exact absurd hmem (by simp)
  | cons a rest ih =>
    rw [firstInvalid]
    by_cases hne : (!(equationText s a).data.isEmpty) = true
    · rw [if_pos hne]
      cases hv : validateEquationSyntax evaluate (equationText s a) with
      | invalid error => exact ⟨a, by simp, error, hv, rfl⟩
      | valid n =>
        dsimp only
        obtain ⟨eq, hmem, hq1, hq2⟩ := h
        rcases List.mem_cons.1 hmem with rfl | hmem
        · rw [hv] at hq2
          exact absurd hq2 (by simp [Validation.isValid])
        · obtain ⟨eq2, hm2, error, h1, h2⟩ := ih ⟨eq, hmem, hq1, hq2⟩
          exact ⟨eq2, List.mem_cons_of_mem _ hm2, error, h1, h2⟩
    · rw [if_neg hne]
      obtain ⟨eq, hmem, hq1, hq2⟩ := h
      rcases List.mem_cons.1 hmem with rfl | hmem
      · exfalso
        apply hne
        simp [List.isEmpty_iff, hq1]
      · obtain ⟨eq2, hm2, error, h1, h2⟩ := ih ⟨eq, hmem, hq1, hq2⟩
        exact ⟨eq2, List.mem_cons_of_mem _ hm2, error, h1, h2⟩

theorem firstInvalid_none_of_valid (evaluate : Evaluator) (s : Session) (l : List Equation)
    (h : ∀ eq ∈ l, (equationText s eq).data ≠ [] →
      (validateEquationSyntax evaluate (equationText s eq)).isValid = true) :
    firstInvalid evaluate s l = none := by
  induction l with
  | nil => rfl
  | cons a rest ih =>
    rw [firstInvalid]
    have ih2 := ih (fun eq hm => h eq (List.mem_cons_of_mem _ hm))
    by_cases hne : (!(equationText s a).data.isEmpty) = true
    · rw [if_pos hne]
      have hv := h a (by simp) (by
        intro e
        rw [e] at hne
        simp at hne)
      cases hc : validateEquationSyntax evaluate (equationText s a) with
      | invalid error =>
        rw [hc] at hv
        exact absurd hv (by simp [Validation.isValid])
      | valid n => exact ih2
    · rw [if_neg hne]
      exact ih2

theorem sampleEquations_eq_map (evaluate : Evaluator) (s : Session) (axisRange : AxisRange)
    (l : List Equation) :
    sampleEquations evaluate s axisRange l =
      (l.filter (fun eq => !(equationText s eq).data.isEmpty)).map (fun eq =>
        SceneObject.surface
          (drawImplicitSurfaceImproved (scalarField evaluate (equationText s eq)) axisRange)
          eq.color) := by
  induction l with
  | nil => rfl
  | cons a rest ih =>
    rw [sampleEquations]
    by_cases hne : (!(equationText s a).data.isEmpty) = true
    · rw [if_pos hne,
        List.filter_cons_of_pos (p := fun eq => !(equationText s eq).data.isEmpty) hne,
        List.map_cons, ih]
    · rw [if_neg hne,
        List.filter_cons_of_neg (p := fun eq => !(equationText s eq).data.isEmpty) hne, ih]

/-- C16 (amended): when some live equation with a non-empty text fails the validation,
`visualizeEquations` alerts the error of such an equation and returns with the state
unchanged: no equation is compiled or sampled; when there is an equation and every
non-empty text is valid, the visualization is replaced by one sampled surface per
non-empty equation, in order, over the range computed from the texts. -/
theorem visualizeEquations_all_or_nothing (evaluate : Evaluator) (s : Session) :
    ((∃ eq ∈ s.equations, (equationText s eq).data ≠ [] ∧
        (validateEquationSyntax evaluate (equationText s eq)).isValid = false) →
      ∃ eq ∈ s.equations, ∃ error,
        validateEquationSyntax evaluate (equationText s eq) = Validation.invalid error ∧
        visualizeEquations evaluate s =
          (Outcome.alert ("Error in Equation " ++ toString eq.displayNumber ++ ": " ++ error),
            s)) ∧
    (s.equations ≠ [] →
      (∀ eq ∈ s.equations, (equationText s eq).data ≠ [] →
        (validateEquationSyntax evaluate (equationText s eq)).isValid = true) →
      visualizeEquations evaluate s =
        (Outcome.done,
          { s with
            axisRange := calculateAxisRange (equationInputs s)
            visualizedObjects := (nonEmptyEquations s).map (fun eq =>
              SceneObject.surface
                (drawImplicitSurfaceImproved (scalarField evaluate (equationText s eq))
                  (calculateAxisRange (equationInputs s)))
                eq.color) })) := by
  constructor
  · intro h
    have hne : s.equations ≠ [] := by
      obtain ⟨eq, hmem, _⟩ := h
      exact List.ne_nil_of_mem hmem
    obtain ⟨eq, hmem, error, hv, hf⟩ := firstInvalid_some_of_invalid evaluate s s.equations h
    refine ⟨eq, hmem, error, hv, ?_⟩
    unfold visualizeEquations
    have hl : ¬ s.equations.length = 0 := by
      rw [List.length_eq_zero]
      exact hne
    rw [if_neg hl, hf]
  · intro hne hall
    unfold visualizeEquations
    have hl : ¬ s.equations.length = 0 := by
      rw [List.length_eq_zero]
      exact hne
    rw [if_neg hl, firstInvalid_none_of_valid evaluate s s.equations hall]
    simp only [sampleEquations_eq_map, nonEmptyEquations, clearVisualization]

/-- C16 (counterexample): with the texts `x=1`, which is valid, and `x+*y=1`, which is
not, `visualizeEquations` alerts the error of equation 2 and nothing is sampled: the list
of visualized objects stays empty, without a surface for equation 1. -/
theorem visualizeEquations_aborts_whole_pass :
    twoEquations.equations =
      [Equation.mk 1 "#ef4444" 0 1, Equation.mk 2 "#22d3ee" 1 2] ∧
    equationText twoEquations (Equation.mk 1 "#ef4444" 0 1) = "x=1" ∧
    equationText twoEquations (Equation.mk 2 "#22d3ee" 1 2) = "x+*y=1" ∧
    validateEquationSyntax atomEvaluator "x=1" = Validation.valid "x=1" ∧
    (visualizeEquations atomEvaluator twoEquations).1 =
      Outcome.alert
        ("Error in Equation 2: " ++
          "Consecutive operators found (e.g., ++, --, */). Use single operators.") ∧
    (visualizeEquations atomEvaluator twoEquations).2.visualizedObjects = [] := by
  have h1 : twoEquations.equations =
      [Equation.mk 1 "#ef4444" 0 1, Equation.mk 2 "#22d3ee" 1 2] := by decide
  have h2 : equationText twoEquations (Equation.mk 1 "#ef4444" 0 1) = "x=1" := by decide
  have h3 : equationText twoEquations (Equation.mk 2 "#22d3ee" 1 2) = "x+*y=1" := by decide
  have h4 : validateEquationSyntax atomEvaluator "x=1" = Validation.valid "x=1" := by
    rw [validate_of_pass atomEvaluator "x=1" (by decide) (by decide),
      tryParse_of_mem atomEvaluator _ (by decide)]
    rfl
  have h5 : ∀ evaluate : Evaluator, validateEquationSyntax evaluate "x+*y=1" =
      Validation.invalid
        "Consecutive operators found (e.g., ++, --, */). Use single operators." :=
    fun evaluate => validate_of_structuralError evaluate _ _ (by decide) (by decide)
  have h6 : firstInvalid atomEvaluator twoEquations twoEquations.equations =
      some ("Error in Equation 2: " ++
        "Consecutive operators found (e.g., ++, --, */). Use single operators.") := by
    rw [h1]
    simp only [firstInvalid, h2, h3, h4, h5]
    decide
  have h7 : visualizeEquations atomEvaluator twoEquations =
      (Outcome.alert
        ("Error in Equation 2: " ++
          "Consecutive operators found (e.g., ++, --, */). Use single operators."),
        twoEquations) := by
    unfold visualizeEquations
    rw [h6, h1]
    rfl
  refine ⟨h1, h2, h3, h4, ?_, ?_⟩
  · rw [h7]
  · rw [h7]
    rfl

/-- C16 (witness): the two equations `x=1` and `x+*y=1` contain an invalid non-empty
text, and the pass is aborted with the state unchanged. -/
theorem visualizeEquations_all_or_nothing_witness :
    (∃ eq ∈ twoEquations.equations, (equationText twoEquations eq).data ≠ [] ∧
      (validateEquationSyntax atomEvaluator (equationText twoEquations eq)).isValid = false) ∧
    ∃ eq ∈ twoEquations.equations, ∃ error,
      validateEquationSyntax atomEvaluator (equationText twoEquations eq) =
        Validation.invalid error ∧
      visualizeEquations atomEvaluator twoEquations =
        (Outcome.alert ("Error in Equation " ++ toString eq.displayNumber ++ ": " ++ error),
          twoEquations) := by
  have hex : ∃ eq ∈ twoEquations.equations, (equationText twoEquations eq).data ≠ [] ∧
      (validateEquationSyntax atomEvaluator (equationText twoEquations eq)).isValid = false := by
    refine ⟨Equation.mk 2 "#22d3ee" 1 2, by decide, by decide, ?_⟩
    have h3 : equationText twoEquations (Equation.mk 2 "#22d3ee" 1 2) = "x+*y=1" := by decide
    rw [h3, validate_of_structuralError atomEvaluator "x+*y=1"
      "Consecutive operators found (e.g., ++, --, */). Use single operators."
      (by decide) (by decide)]
    rfl
  exact ⟨hex, (visualizeEquations_all_or_nothing atomEvaluator twoEquations).1 hex⟩

/-- C17 (witness): with one live equation the request is rejected for too few equations,
and with two live equations of which one has a text the visualized objects are
unchanged. -/
theorem visualizeIntersection_rejects_witness :
    (addEquation initialSession).equations.length < 2 ∧
    visualizeIntersection atomEvaluator (addEquation initialSession) =
      (Outcome.alert "Need at least 2 equations for intersection!",
        addEquation initialSession) ∧
    (nonEmptyEquations (setInput 1 "x=1" (addEquation (addEquation initialSession)))).length
      < 2 ∧
    (visualizeIntersection atomEvaluator
      (setInput 1 "x=1" (addEquation (addEquation initialSession)))).2.visualizedObjects =
      (setInput 1 "x=1" (addEquation (addEquation initialSession))).visualizedObjects := by
  refine ⟨by decide, ?_, by decide, ?_⟩
  · rcases (visualizeIntersection_rejects atomEvaluator (addEquation initialSession)
        (Or.inl (by decide))).1 with h | h | ⟨m, h⟩
    · exact h
    · rfl
    · rfl
  · exact (visualizeIntersection_rejects atomEvaluator
      (setInput 1 "x=1" (addEquation (addEquation initialSession)))
      (Or.inr (by decide))).2.1

/-! ## Equation list and colour indices -/

theorem firstFreeColorIndex_eq (used : List Nat) :
    firstFreeColorIndex used =
      if 0 ∉ used then 0 else if 1 ∉ used then 1 else if 2 ∉ used then 2 else 0 := by
  have hr : List.range EQUATION_COLORS.length = [0, 1, 2] := by decide
  unfold firstFreeColorIndex
  rw [hr]
  by_cases h0 : 0 ∈ used <;> by_cases h1 : 1 ∈ used <;> by_cases h2 : 2 ∈ used <;>
    simp [List.find?, h0, h1, h2]

theorem firstFreeColorIndex_spec (used : List Nat) (h : ∃ i, i < 3 ∧ i ∉ used) :
    firstFreeColorIndex used < 3 ∧ firstFreeColorIndex used ∉ used ∧
    ∀ m, m < firstFreeColorIndex used → m ∈ used := by
  rw [firstFreeColorIndex_eq]
  obtain ⟨i, hi, hiu⟩ := h
  by_cases h0 : 0 ∈ used
  · by_cases h1 : 1 ∈ used
    · by_cases h2 : 2 ∈ used
      · exfalso
        have : i = 0 ∨ i = 1 ∨ i = 2 := by omega
        rcases this with rfl | rfl | rfl
        · exact hiu h0
        · exact hiu h1
        · exact hiu h2
      · simp only [h0, h1, h2, not_true_eq_false, not_false_eq_true, if_true, if_false]
        refine ⟨by norm_num, trivial, ?_⟩
        intro m hm
        have : m = 0 ∨ m = 1 := by omega
        rcases this with rfl | rfl
        · exact h0
        · exact h1
    · simp only [h0, h1, not_true_eq_false, not_false_eq_true, if_true, if_false]
      refine ⟨by norm_num, trivial, ?_⟩
      intro m hm
      have : m = 0 := by omega
      rw [this]
      exact h0
  · simp only [h0, not_false_eq_true, if_true]
    exact ⟨by norm_num, trivial, fun m hm => absurd hm (by omega)⟩

theorem exists_free_index (used : List Nat) (hl : used.length < 3) :
    ∃ i, i < 3 ∧ i ∉ used := by
  by_contra hcon
  push_neg at hcon
  have hsub : [0, 1, 2] ⊆ used := by
    intro x hx
    simp only [List.mem_cons, List.mem_singleton, List.not_mem_nil, or_false] at hx
    rcases hx with rfl | rfl | rfl
    · exact hcon 0 (by norm_num)
    · exact hcon 1 (by norm_num)
    · exact hcon 2 (by norm_num)
  have hle := (List.subperm_of_subset (by decide : ([0, 1, 2] : List Nat).Nodup) hsub).length_le
  simp at hle
  omega

theorem usedColorIndices_length (s : Session) :
    (usedColorIndices s).length = s.equations.length := by
  simp [usedColorIndices]

theorem addEquation_of_full (s : Session) (h : 3 ≤ s.equations.length) : addEquation s = s := by
  unfold addEquation
  rw [if_pos (by simpa [MAX_EQUATIONS] using h)]

theorem addEquation_equations (s : Session) (h : s.equations.length < 3) :
    (addEquation s).equations = s.equations ++
      [Equation.mk s.nextEquationId
        (EQUATION_COLORS.getD (firstFreeColorIndex (usedColorIndices s)) "")
        (firstFreeColorIndex (usedColorIndices s)) (s.equations.length + 1)] := by
  unfold addEquation
  rw [if_neg (by simp only [MAX_EQUATIONS, ge_iff_le, not_le]; exact h)]
  rfl

theorem renumberFrom_colorIndex (n : Nat) (l : List Equation) :
    (renumberFrom n l).map (fun eq => eq.colorIndex) = l.map (fun eq => eq.colorIndex) := by
  induction l generalizing n with
  | nil => rfl
  | cons a rest ih => simp [renumberFrom, ih]

theorem renumberFrom_length (n : Nat) (l : List Equation) :
    (renumberFrom n l).length = l.length := by
  induction l generalizing n with
  | nil => rfl
  | cons a rest ih => simp [renumberFrom, ih]

theorem removeEquation_used (id : Nat) (s : Session) :
    usedColorIndices (removeEquation id s) =
      (s.equations.filter (fun eq => eq.id != id)).map (fun eq => eq.colorIndex) := by
  unfold removeEquation usedColorIndices
  by_cases h : s.equations.any (fun eq => eq.id == id) = true
  · rw [if_pos h]
    exact renumberFrom_colorIndex 0 _
  · rw [if_neg h]
    have hall : ∀ eq ∈ s.equations, (eq.id != id) = true := by
      intro eq hmem
      simp only [List.any_eq_true, not_exists, not_and] at h
      have := h eq hmem
      simpa [bne] using this
    rw [List.filter_eq_self.2 hall]

theorem removeEquation_length (id : Nat) (s : Session) :
    (removeEquation id s).equations.length =
      (s.equations.filter (fun eq => eq.id != id)).length := by
  have h := congrArg List.length (removeEquation_used id s)
  simpa [usedColorIndices] using h

theorem equationsInv_initial : EquationsInv (initialSession, []) := by
  refine ⟨by simp [initialSession], by simp [usedColorIndices, initialSession], ?_, ?_⟩
  · intro c hc
    simp [usedColorIndices, initialSession] at hc
  · intro c hc
    simp [usedColorIndices, initialSession] at hc

theorem equationsInv_add (st : Session × List Nat) (h : EquationsInv st) :
    EquationsInv (addEquation st.1, st.2) := by
  obtain ⟨hlen, hnd, hb, hdown⟩ := h
  by_cases hfull : 3 ≤ st.1.equations.length
  · rw [addEquation_of_full _ hfull]
    exact ⟨hlen, hnd, hb, hdown⟩
  · have hlt : st.1.equations.length < 3 := by omega
    have hfree := exists_free_index (usedColorIndices st.1)
      (by rw [usedColorIndices_length]; exact hlt)
    obtain ⟨c3, cnot, clow⟩ := firstFreeColorIndex_spec _ hfree
    have hused : usedColorIndices (addEquation st.1) =
        usedColorIndices st.1 ++ [firstFreeColorIndex (usedColorIndices st.1)] := by
      simp only [usedColorIndices, addEquation_equations _ hlt, List.map_append, List.map_cons,
        List.map_nil]
    refine ⟨?_, ?_, ?_, ?_⟩
    · show (addEquation st.1).equations.length ≤ 3
      rw [addEquation_equations _ hlt]
      simp only [List.length_append, List.length_singleton]
      omega
    · show (usedColorIndices (addEquation st.1)).Nodup
      rw [hused]
      refine List.Nodup.append hnd (List.nodup_singleton _) ?_
      intro x hx hx2
      rw [List.mem_singleton] at hx2
      rw [hx2] at hx
      exact cnot hx
    · intro c hc
      change c ∈ usedColorIndices (addEquation st.1) at hc
      rw [hused, List.mem_append, List.mem_singleton] at hc
      rcases hc with hc | hc
      · exact hb c hc
      · rw [hc]; exact c3
    · intro c hc m hm
      change (c ∈ usedColorIndices (addEquation st.1) ∨ c ∈ st.2) at hc
      show (m ∈ usedColorIndices (addEquation st.1) ∨ m ∈ st.2)
      rw [hused, List.mem_append, List.mem_singleton] at hc
      rw [hused, List.mem_append, List.mem_singleton]
      rcases hc with (hc | hc) | hc
      · rcases hdown c (Or.inl hc) m hm with h1 | h1
        · exact Or.inl (Or.inl h1)
        · exact Or.inr h1
      · rw [hc] at hm
        exact Or.inl (Or.inl (clow m hm))
      · rcases hdown c (Or.inr hc) m hm with h1 | h1
        · exact Or.inl (Or.inl h1)
        · exact Or.inr h1

theorem mem_used_split (id : Nat) (s : Session) (m : Nat) (h : m ∈ usedColorIndices s) :
    m ∈ usedColorIndices (removeEquation id s) ∨
    m ∈ (s.equations.filter (fun eq => eq.id == id)).map (fun eq => eq.colorIndex) := by
  rw [removeEquation_used]
  simp only [usedColorIndices, List.mem_map] at h
  obtain ⟨eq, hmem, rfl⟩ := h
  by_cases hid : eq.id = id
  · right
    exact List.mem_map.2 ⟨eq, List.mem_filter.2 ⟨hmem, by simp [hid]⟩, rfl⟩
  · left
    exact List.mem_map.2 ⟨eq, List.mem_filter.2 ⟨hmem, by simp [hid]⟩, rfl⟩

theorem used_of_mem_remove (id : Nat) (s : Session) (m : Nat)
    (h : m ∈ usedColorIndices (removeEquation id s)) : m ∈ usedColorIndices s := by
  rw [removeEquation_used] at h
  obtain ⟨eq, hmem, rfl⟩ := List.mem_map.1 h
  exact List.mem_map.2 ⟨eq, (List.mem_filter.1 hmem).1, rfl⟩

theorem used_of_mem_removed (id : Nat) (s : Session) (m : Nat)
    (h : m ∈ (s.equations.filter (fun eq => eq.id == id)).map (fun eq => eq.colorIndex)) :
    m ∈ usedColorIndices s := by
  obtain ⟨eq, hmem, rfl⟩ := List.mem_map.1 h
  exact List.mem_map.2 ⟨eq, (List.mem_filter.1 hmem).1, rfl⟩

theorem equationsInv_remove (id : Nat) (st : Session × List Nat) (h : EquationsInv st) :
    EquationsInv (removeEquation id st.1,
      st.2 ++ (st.1.equations.filter (fun eq => eq.id == id)).map (fun eq => eq.colorIndex)) := by
  obtain ⟨hlen, hnd, hb, hdown⟩ := h
  refine ⟨?_, ?_, ?_, ?_⟩
  · show (removeEquation id st.1).equations.length ≤ 3
    rw [removeEquation_length]
    exact le_trans (List.length_filter_le _ _) hlen
  · show (usedColorIndices (removeEquation id st.1)).Nodup
    rw [removeEquation_used]
    exact List.Nodup.sublist (List.Sublist.map _ (List.filter_sublist _)) hnd
  · intro c hc
    exact hb c (used_of_mem_remove id st.1 c hc)
  · intro c hc m hm
    change (c ∈ usedColorIndices (removeEquation id st.1) ∨ c ∈ st.2 ++ _) at hc
    show (m ∈ usedColorIndices (removeEquation id st.1) ∨ m ∈ st.2 ++ _)
    have hc2 : c ∈ usedColorIndices st.1 ∨ c ∈ st.2 := by
      rcases hc with hc | hc
      · exact Or.inl (used_of_mem_remove id st.1 c hc)
      · rcases List.mem_append.1 hc with hc | hc
        · exact Or.inr hc
        · exact Or.inl (used_of_mem_removed id st.1 c hc)
    rcases hdown c hc2 m hm with h1 | h1
    · rcases mem_used_split id st.1 m h1 with h2 | h2
      · exact Or.inl h2
      · exact Or.inr (List.mem_append.2 (Or.inr h2))
    · exact Or.inr (List.mem_append.2 (Or.inl h1))

theorem equationsInv_step (st : Session × List Nat) (op : EquationOp) (h : EquationsInv st) :
    EquationsInv (stepTrace st op) := by
  cases op with
  | add => exact equationsInv_add st h
  | remove id => exact equationsInv_remove id st h

theorem equationsInv_foldl (ops : List EquationOp) (st : Session × List Nat)
    (h : EquationsInv st) : EquationsInv (ops.foldl stepTrace st) := by
  induction ops generalizing st with
  | nil => exact h
  | cons op rest ih => exact ih _ (equationsInv_step st op h)

theorem equationsInv_runTrace (ops : List EquationOp) : EquationsInv (runTrace ops) :=
  equationsInv_foldl ops _ equationsInv_initial

theorem foldl_stepTrace_fst (ops : List EquationOp) (st : Session × List Nat) :
    (ops.foldl stepTrace st).1 = ops.foldl applyOp st.1 := by
  induction ops generalizing st with
  | nil => rfl
  | cons op rest ih =>
    rw [List.foldl_cons, List.foldl_cons, ih]
    rfl

theorem runTrace_fst (ops : List EquationOp) : (runTrace ops).1 = runOps ops :=
  foldl_stepTrace_fst ops _

theorem runTrace_snoc_remove (ops : List EquationOp) (id : Nat) :
    runTrace (ops ++ [EquationOp.remove id]) =
      (removeEquation id (runOps ops),
        removedColorIndices ops ++
          ((runOps ops).equations.filter (fun eq => eq.id == id)).map
            (fun eq => eq.colorIndex)) := by
  unfold runTrace removedColorIndices
  rw [List.foldl_append, List.foldl_cons, List.foldl_nil]
  unfold stepTrace
  simp only [applyOp]
  rw [← runTrace_fst]
  rfl

/-- C19: after every sequence of `addEquation` and `removeEquation` calls from the
initial state, at most 3 equations are live and their colour indices are pairwise distinct
and below 3; `addEquation` adds nothing when 3 are live, and otherwise adds one equation
whose colour index is the lowest index in 0..2 used by no live equation; after the removal
of a live equation its index is free, and the next add takes an index that is at most the
removed one, that belongs to an equation removed during the run, and that is the index just
freed whenever every lower index is in use. -/
theorem equations_color_invariant (ops : List EquationOp) :
    (runOps ops).equations.length ≤ 3 ∧
    (usedColorIndices (runOps ops)).Nodup ∧
    (∀ c ∈ usedColorIndices (runOps ops), c < 3) ∧
    (3 ≤ (runOps ops).equations.length → addEquation (runOps ops) = runOps ops) ∧
    ((runOps ops).equations.length < 3 →
      ∃ e, (addEquation (runOps ops)).equations = (runOps ops).equations ++ [e] ∧
        e.colorIndex < 3 ∧ e.colorIndex ∉ usedColorIndices (runOps ops) ∧
        ∀ m, m < e.colorIndex → m ∈ usedColorIndices (runOps ops)) ∧
    (∀ r ∈ (runOps ops).equations,
      r.colorIndex ∉ usedColorIndices (removeEquation r.id (runOps ops)) ∧
      ∃ e, (addEquation (removeEquation r.id (runOps ops))).equations =
          (removeEquation r.id (runOps ops)).equations ++ [e] ∧
        e.colorIndex ≤ r.colorIndex ∧
        e.colorIndex ∈ removedColorIndices (ops ++ [EquationOp.remove r.id]) ∧
        ((∀ m, m < r.colorIndex → m ∈ usedColorIndices (removeEquation r.id (runOps ops))) →
          e.colorIndex = r.colorIndex)) := by
  have hinv := equationsInv_runTrace ops
  obtain ⟨hlen, hnd, hb, _⟩ := hinv
  rw [runTrace_fst] at hlen hnd hb
  have addSpec : ∀ s : Session, s.equations.length < 3 →
      ∃ e, (addEquation s).equations = s.equations ++ [e] ∧
        e.colorIndex < 3 ∧ e.colorIndex ∉ usedColorIndices s ∧
        ∀ m, m < e.colorIndex → m ∈ usedColorIndices s := by
    intro s hlt
    have hfree := exists_free_index (usedColorIndices s)
      (by rw [usedColorIndices_length]; exact hlt)
    obtain ⟨c3, cnot, clow⟩ := firstFreeColorIndex_spec _ hfree
    exact ⟨_, addEquation_equations s hlt, c3, cnot, clow⟩
  refine ⟨hlen, hnd, hb, addEquation_of_full _, addSpec _, ?_⟩
  intro r hr
  have hinv2 := equationsInv_runTrace (ops ++ [EquationOp.remove r.id])
  rw [runTrace_snoc_remove] at hinv2
  obtain ⟨_, _, _, hdown2⟩ := hinv2
  have hrem : r.colorIndex ∈ removedColorIndices (ops ++ [EquationOp.remove r.id]) := by
    unfold removedColorIndices
    rw [runTrace_snoc_remove]
    exact List.mem_append.2 (Or.inr (List.mem_map.2
      ⟨r, List.mem_filter.2 ⟨hr, by simp⟩, rfl⟩))
  have hnot : r.colorIndex ∉ usedColorIndices (removeEquation r.id (runOps ops)) := by
    rw [removeEquation_used]
    intro hmem
    obtain ⟨e, he, hce⟩ := List.mem_map.1 hmem
    obtain ⟨he1, he2⟩ := List.mem_filter.1 he
    have heq : e = r := List.inj_on_of_nodup_map hnd he1 hr hce
    rw [heq] at he2
    simp at he2
  have hlt : (removeEquation r.id (runOps ops)).equations.length < 3 := by
    rw [removeEquation_length]
    have : (List.filter (fun eq => eq.id != r.id) (runOps ops).equations).length <
        (runOps ops).equations.length := by
      rw [List.length_filter_lt_length_iff_exists]
      exact ⟨r, hr, by simp⟩
    omega
  obtain ⟨e, he, _, enot, elow⟩ := addSpec _ hlt
  have hle : e.colorIndex ≤ r.colorIndex := by
    by_contra hcon
    exact hnot (elow _ (by omega))
  refine ⟨hnot, e, he, hle, ?_, ?_⟩
  · rcases Nat.lt_or_ge e.colorIndex r.colorIndex with h1 | h1
    · have hremoved : r.colorIndex ∈ removedColorIndices ops ++
          ((runOps ops).equations.filter (fun eq => eq.id == r.id)).map
            (fun eq => eq.colorIndex) := by
        have := hrem
        unfold removedColorIndices at this
        rw [runTrace_snoc_remove] at this
        exact this
      rcases hdown2 r.colorIndex (Or.inr hremoved) e.colorIndex h1 with h2 | h2
      · exact absurd h2 enot
      · unfold removedColorIndices
        rw [runTrace_snoc_remove]
        exact h2
    · have : e.colorIndex = r.colorIndex := le_antisymm hle h1
      rw [this]
      exact hrem
  · intro hall
    by_contra hne
    have h1 : e.colorIndex < r.colorIndex := lt_of_le_of_ne hle hne
    exact enot (hall _ h1)

/-- C19 (witness): four adds leave three equations with the indices 0, 1, 2; after the
removal of the equation of index 1 the next add takes 1 again; after the removals of the
equations of indices 0 and 2 the next add takes 0. -/
theorem equations_color_invariant_witness :
    (runOps [EquationOp.add, EquationOp.add, EquationOp.add, EquationOp.add]).equations =
      [Equation.mk 1 "#ef4444" 0 1, Equation.mk 2 "#22d3ee" 1 2,
        Equation.mk 3 "#a78bfa" 2 3] ∧
    (runOps [EquationOp.add, EquationOp.add, EquationOp.add,
        EquationOp.remove 2, EquationOp.add]).equations =
      [Equation.mk 1 "#ef4444" 0 1, Equation.mk 3 "#a78bfa" 2 2,
        Equation.mk 4 "#22d3ee" 1 3] ∧
    (runOps [EquationOp.add, EquationOp.add, EquationOp.add, EquationOp.remove 1,
        EquationOp.remove 3, EquationOp.add]).equations =
      [Equation.mk 2 "#22d3ee" 1 1, Equation.mk 4 "#ef4444" 0 2] ∧
    removedColorIndices [EquationOp.add, EquationOp.add, EquationOp.add, EquationOp.remove 1,
        EquationOp.remove 3] = [0, 2] ∧
    (runOps [EquationOp.add, EquationOp.add, EquationOp.add, EquationOp.remove 2]).equations.length
      < 3 ∧
    ∃ e, (addEquation (runOps [EquationOp.add, EquationOp.add, EquationOp.add,
          EquationOp.remove 2])).equations =
        (runOps [EquationOp.add, EquationOp.add, EquationOp.add,
          EquationOp.remove 2]).equations ++ [e] ∧
      e.colorIndex < 3 ∧
      e.colorIndex ∉ usedColorIndices (runOps [EquationOp.add, EquationOp.add, EquationOp.add,
        EquationOp.remove 2]) ∧
      ∀ m, m < e.colorIndex → m ∈ usedColorIndices (runOps [EquationOp.add, EquationOp.add,
        EquationOp.add, EquationOp.remove 2]) :=
  ⟨by decide, by decide, by decide, by decide, by decide,
   (equations_color_invariant [EquationOp.add, EquationOp.add, EquationOp.add,
      EquationOp.remove 2]).2.2.2.2.1 (by decide)⟩

end GeometryVisualizer
